import Mathlib

/-!
Verification of the journal-transporter transfer engine against its
natural-language specification.

The development shallowly embeds the Python code of
`journal_transporter/transfer/transfer_handler.py` in Lean:

* Python JSON values (the results of `json.loads`, plus the opened file
  handles that the push handlers insert into payload dictionaries) are the
  inductive type `Json`;
* Python dictionaries are association lists with unique keys; `d.get(k)` is
  `getField`, `d[k] = v` is `setField` (replace in place, else append);
* Python truthiness (`if value:`) is `truthy`;
* functions that can raise return `Except PyErr`, with one error value per
  relevant Python exception class;
* `uuid.uuid5` is kept abstract as a parameter `u5 : String -> String -> String`
  (namespace, name); no claim depends on the SHA-1 internals, only on the
  derivation being a fixed function of namespace and source key.

Each claim of the specification is settled by one theorem named `claim_Cn`,
with `claim_Cn_witness` instantiating hypotheses at concrete inputs and
`claim_Cn_counterexample` refuting a claim as literally stated where the code
differs.
-/

namespace JournalTransporter

inductive Json where
  | null
  | bool (b : Bool)
  | num (n : Int)
  | str (s : String)
  | arr (elems : List Json)
  | obj (fields : List (String × Json))
  | file (name : String)

def truthy : Json → Bool
  | .null => false
  | .bool b => b
  | .num n => n != 0
  | .str s => s != ""
  | .arr l => !l.isEmpty
  | .obj l => !l.isEmpty
  | .file _ => true

def getField : List (String × Json) → String → Option Json
  | [], _ => none
  | (k, v) :: rest, key => if k = key then some v else getField rest key

def hasKey (l : List (String × Json)) (key : String) : Bool :=
  l.any (fun p => p.1 == key)

inductive PyErr where
  | typeErr
  | keyErr
  | attributeErr
  | fileNotFound
  | indexErr
  | serverResponse
  | assertionErr
deriving DecidableEq

mutual
def assignUuids (u5 : String → String → String) (ns : String) : Json → Except PyErr Json
  | .obj l =>
    match getField l "source_record_key" with
    | some (.str s) =>
      if s = "" then
        match assignFields u5 ns l with
        | .error e => .error e
        | .ok l' => .ok (.obj l')
      else
        match assignSet u5 ns (u5 ns s) l with
        | .error e => .error e
        | .ok l' => .ok (.obj (if hasKey l "uuid" then l' else l' ++ [("uuid", .str (u5 ns s))]))
    | some v =>
      if truthy v then .error .typeErr
      else
        match assignFields u5 ns l with
        | .error e => .error e
        | .ok l' => .ok (.obj l')
    | none =>
      match assignFields u5 ns l with
      | .error e => .error e
      | .ok l' => .ok (.obj l')
  | .arr l =>
    match assignList u5 ns l with
    | .error e => .error e
    | .ok l' => .ok (.arr l')
  | j => .ok j

def assignList (u5 : String → String → String) (ns : String) : List Json → Except PyErr (List Json)
  | [] => .ok []
  | j :: rest =>
    match assignUuids u5 ns j with
    | .error e => .error e
    | .ok j' =>
      match assignList u5 ns rest with
      | .error e => .error e
      | .ok rest' => .ok (j' :: rest')

def assignFields (u5 : String → String → String) (ns : String) :
    List (String × Json) → Except PyErr (List (String × Json))
  | [] => .ok []
  | (k, v) :: rest =>
    match assignUuids u5 ns v with
    | .error e => .error e
    | .ok v' =>
      match assignFields u5 ns rest with
      | .error e => .error e
      | .ok rest' => .ok ((k, v') :: rest')

def assignSet (u5 : String → String → String) (ns : String) (u : String) :
    List (String × Json) → Except PyErr (List (String × Json))
  | [] => .ok []
  | (k, v) :: rest =>
    if k = "uuid" then
      match assignSet u5 ns u rest with
      | .error e => .error e
      | .ok rest' => .ok ((k, Json.str u) :: rest')
    else
      match assignUuids u5 ns v with
      | .error e => .error e
      | .ok v' =>
        match assignSet u5 ns u rest with
        | .error e => .error e
        | .ok rest' => .ok ((k, v') :: rest')
end

inductive UuidAssigned (u5 : String → String → String) (ns : String) : Json → Prop where
  | null : UuidAssigned u5 ns .null
  | bool (b : Bool) : UuidAssigned u5 ns (.bool b)
  | num (n : Int) : UuidAssigned u5 ns (.num n)
  | str (s : String) : UuidAssigned u5 ns (.str s)
  | file (s : String) : UuidAssigned u5 ns (.file s)
  | arr (l : List Json) (h : ∀ j ∈ l, UuidAssigned u5 ns j) : UuidAssigned u5 ns (.arr l)
  | obj (l : List (String × Json))
      (hkey : ∀ s, getField l "source_record_key" = some (.str s) → s ≠ "" →
        getField l "uuid" = some (.str (u5 ns s)))
      (hvals : ∀ p ∈ l, UuidAssigned u5 ns p.2) : UuidAssigned u5 ns (.obj l)

section Lemmas

variable {u5 : String → String → String} {ns : String}

theorem truthy_false_fix (j : Json) (h : truthy j = false) : assignUuids u5 ns j = .ok j := by
  cases j with
  | null => rfl
  | bool b => rfl
  | num n => rfl
  | str s => rfl
  | file s => rfl
  | arr l => simp [truthy] at h; subst h; rfl
  | obj l => simp [truthy] at h; subst h; rfl

theorem assignFields_forall₂ : ∀ {l l' : List (String × Json)},
    assignFields u5 ns l = .ok l' →
    List.Forall₂ (fun p q => p.1 = q.1 ∧ assignUuids u5 ns p.2 = .ok q.2) l l'
  | [], l', h => by
    simp only [assignFields] at h
    cases h
    exact .nil
  | (k, v) :: rest, l', h => by
    simp only [assignFields] at h
    cases hv : assignUuids u5 ns v with
    | error e => rw [hv] at h; cases h
    | ok v' =>
      rw [hv] at h
      cases hr : assignFields u5 ns rest with
      | error e => rw [hr] at h; cases h
      | ok rest' =>
        rw [hr] at h
        cases h
        exact .cons ⟨rfl, hv⟩ (assignFields_forall₂ hr)

theorem assignSet_forall₂ {u : String} : ∀ {l l' : List (String × Json)},
    assignSet u5 ns u l = .ok l' →
    List.Forall₂ (fun p q => p.1 = q.1 ∧
      ((p.1 = "uuid" ∧ q.2 = .str u) ∨ (p.1 ≠ "uuid" ∧ assignUuids u5 ns p.2 = .ok q.2))) l l'
  | [], l', h => by
    simp only [assignSet] at h
    cases h
    exact .nil
  | (k, v) :: rest, l', h => by
    simp only [assignSet] at h
    by_cases hk : k = "uuid"
    · rw [if_pos hk] at h
      cases hr : assignSet u5 ns u rest with
      | error e => rw [hr] at h; cases h
      | ok rest' =>
        rw [hr] at h
        cases h
        exact .cons ⟨rfl, Or.inl ⟨hk, rfl⟩⟩ (assignSet_forall₂ hr)
    · rw [if_neg hk] at h
      cases hv : assignUuids u5 ns v with
      | error e => rw [hv] at h; cases h
      | ok v' =>
        rw [hv] at h
        cases hr : assignSet u5 ns u rest with
        | error e => rw [hr] at h; cases h
        | ok rest' =>
          rw [hr] at h
          cases h
          exact .cons ⟨rfl, Or.inr ⟨hk, hv⟩⟩ (assignSet_forall₂ hr)

theorem assignList_forall₂ : ∀ {l l' : List Json},
    assignList u5 ns l = .ok l' → List.Forall₂ (fun a b => assignUuids u5 ns a = .ok b) l l'
  | [], l', h => by
    simp only [assignList] at h
    cases h
    exact .nil
  | j :: rest, l', h => by
    simp only [assignList] at h
    cases hv : assignUuids u5 ns j with
    | error e => rw [hv] at h; cases h
    | ok j' =>
      rw [hv] at h
      cases hr : assignList u5 ns rest with
      | error e => rw [hr] at h; cases h
      | ok rest' =>
        rw [hr] at h
        cases h
        exact .cons hv (assignList_forall₂ hr)

/-- From a key-preserving Forall₂, lookups in the two lists correspond. -/
theorem getField_forall₂ {R : (String × Json) → (String × Json) → Prop}
    (hfst : ∀ _p _q, R _p _q → _p.1 = _q.1) :
    ∀ {l l' : List (String × Json)},
    List.Forall₂ R l l' → ∀ key,
    (getField l key = none ∧ getField l' key = none) ∨
    (∃ v v', getField l key = some v ∧ getField l' key = some v' ∧ R (key, v) (key, v')) := by
  intro l l' h key
  induction h with
  | nil => exact Or.inl ⟨rfl, rfl⟩
  | cons hpq _hrest ih =>
    rename_i p q rest rest'
    have hk := hfst _ _ hpq
    by_cases hkey : p.1 = key
    · refine Or.inr ⟨p.2, q.2, ?_, ?_, ?_⟩
      · cases p; simp_all [getField]
      · cases p; cases q; simp_all [getField]
      · cases p; cases q; simp only at hk hkey; subst hk; subst hkey; exact hpq
    · have h1 : getField (p :: rest) key = getField rest key := by
        cases p; simp_all [getField]
      have h2 : getField (q :: rest') key = getField rest' key := by
        cases p; cases q; simp_all [getField]
      rw [h1, h2]
      exact ih

theorem hasKey_forall₂ {R : (String × Json) → (String × Json) → Prop}
    (hfst : ∀ _p _q, R _p _q → _p.1 = _q.1) :
    ∀ {l l' : List (String × Json)},
    List.Forall₂ R l l' → ∀ key,
    hasKey l' key = hasKey l key := by
  intro l l' h key
  induction h with
  | nil => rfl
  | cons hpq _hrest ih =>
    rename_i p q rest rest'
    have hk := hfst _ _ hpq
    cases p; cases q
    simp only at hk
    subst hk
    simp_all [hasKey]

theorem getField_append_left {l₁ l₂ : List (String × Json)} {key : String} {v : Json}
    (h : getField l₁ key = some v) : getField (l₁ ++ l₂) key = some v := by
  induction l₁ with
  | nil => cases h
  | cons p rest ih =>
    cases p with
    | mk k w =>
      by_cases hk : k = key
      · simp_all [getField]
      · simp_all [getField]

theorem getField_append_right {l₁ l₂ : List (String × Json)} {key : String}
    (h : getField l₁ key = none) : getField (l₁ ++ l₂) key = getField l₂ key := by
  induction l₁ with
  | nil => rfl
  | cons p rest ih =>
    cases p with
    | mk k w =>
      by_cases hk : k = key
      · simp_all [getField]
      · simp_all [getField]

theorem hasKey_iff_getField : ∀ {l : List (String × Json)} {key : String},
    hasKey l key = true ↔ ∃ v, getField l key = some v
  | [], key => by simp [hasKey, getField]
  | (k, w) :: rest, key => by
    by_cases hk : k = key
    · simp [hasKey, getField, hk]
    · have h1 : hasKey ((k, w) :: rest) key = hasKey rest key := by
        simp [hasKey, hk]
      have h2 : getField ((k, w) :: rest) key = getField rest key := by
        simp [getField, hk]
      rw [h1, h2]
      exact hasKey_iff_getField

theorem hasKey_false_getField {l : List (String × Json)} {key : String}
    (h : hasKey l key = false) : getField l key = none := by
  cases hg : getField l key with
  | none => rfl
  | some v =>
    have : hasKey l key = true := hasKey_iff_getField.mpr ⟨v, hg⟩
    rw [h] at this
    cases this

theorem assign_str (s : String) : assignUuids u5 ns (.str s) = .ok (.str s) := rfl

theorem assignSet_srk {u s : String} {l l₁ : List (String × Json)}
    (hset : assignSet u5 ns u l = .ok l₁)
    (hsrc : getField l "source_record_key" = some (.str s)) :
    getField l₁ "source_record_key" = some (.str s) := by
  rcases getField_forall₂ (fun _ _ hr => hr.1) (assignSet_forall₂ hset) "source_record_key" with
    ⟨h1, _⟩ | ⟨v, v', h1, h2, _, hrel⟩
  · rw [h1] at hsrc; cases hsrc
  · rw [h1] at hsrc
    cases hsrc
    rcases hrel with ⟨hk, _⟩ | ⟨_, hok⟩
    · simp at hk
    · simp only at hok
      rw [assign_str] at hok
      cases hok
      exact h2

theorem assignSet_uuid_replaced {u : String} {l l₁ : List (String × Json)}
    (hset : assignSet u5 ns u l = .ok l₁) (hhas : hasKey l "uuid" = true) :
    getField l₁ "uuid" = some (.str u) := by
  obtain ⟨w, hw⟩ := hasKey_iff_getField.mp hhas
  rcases getField_forall₂ (fun _ _ hr => hr.1) (assignSet_forall₂ hset) "uuid" with
    ⟨h1, _⟩ | ⟨v, v', h1, h2, _, hrel⟩
  · rw [h1] at hw; cases hw
  · rcases hrel with ⟨_, hv'⟩ | ⟨hne, _⟩
    · simp only at hv'
      rw [h2, hv']
    · exact absurd rfl hne

theorem assignSet_uuid_none {u : String} {l l₁ : List (String × Json)}
    (hset : assignSet u5 ns u l = .ok l₁) (hhas : hasKey l "uuid" = false) :
    getField l₁ "uuid" = none := by
  have hg := hasKey_false_getField hhas
  rcases getField_forall₂ (fun _ _ hr => hr.1) (assignSet_forall₂ hset) "uuid" with
    ⟨_, h2⟩ | ⟨v, v', h1, _, _⟩
  · exact h2
  · rw [h1] at hg; cases hg

theorem assignSet_hasKey {u : String} {l l₁ : List (String × Json)}
    (hset : assignSet u5 ns u l = .ok l₁) (key : String) :
    hasKey l₁ key = hasKey l key :=
  hasKey_forall₂ (fun _ _ hr => hr.1) (assignSet_forall₂ hset) key

theorem assignFields_srk_falsy {l l₂ : List (String × Json)}
    (hf : assignFields u5 ns l = .ok l₂)
    (hfalsy : ∀ v, getField l "source_record_key" = some v → truthy v = false) :
    getField l₂ "source_record_key" = getField l "source_record_key" := by
  rcases getField_forall₂ (fun _ _ hr => hr.1) (assignFields_forall₂ hf) "source_record_key" with
    ⟨h1, h2⟩ | ⟨v, v', h1, h2, _, hok⟩
  · rw [h1, h2]
  · have hfix := @truthy_false_fix u5 ns v (hfalsy v h1)
    rw [hfix] at hok
    cases hok
    rw [h1, h2]

theorem obj_plain_assigned {l l₂ : List (String × Json)}
    (hf : assignFields u5 ns l = .ok l₂)
    (hfalsy : ∀ v, getField l "source_record_key" = some v → truthy v = false)
    (hvals : ∀ p ∈ l₂, UuidAssigned u5 ns p.2) : UuidAssigned u5 ns (.obj l₂) := by
  refine .obj l₂ ?_ hvals
  intro s' h1 h2
  rw [assignFields_srk_falsy hf hfalsy] at h1
  have := hfalsy _ h1
  simp [truthy] at this
  exact absurd this h2

end Lemmas

mutual

theorem assign_ok_assigned (u5 : String → String → String) (ns : String) :
    ∀ (j j' : Json), assignUuids u5 ns j = .ok j' → UuidAssigned u5 ns j'
  | .null, _, h => by cases h; exact .null
  | .bool b, _, h => by cases h; exact .bool b
  | .num n, _, h => by cases h; exact .num n
  | .str s, _, h => by cases h; exact .str s
  | .file s, _, h => by cases h; exact .file s
  | .arr l, j', h => by
    simp only [assignUuids] at h
    cases hl : assignList u5 ns l with
    | error e => rw [hl] at h; cases h
    | ok l' =>
      rw [hl] at h
      cases h
      exact .arr l' (assignList_ok_assigned u5 ns l l' hl)
  | .obj l, j', h => by
    simp only [assignUuids] at h
    split at h
    · -- source_record_key is a string s
      rename_i s hsrc
      split at h
      · -- s = "": no assignment
        rename_i hs
        cases hf : assignFields u5 ns l with
        | error e => rw [hf] at h; cases h
        | ok l₂ =>
          rw [hf] at h
          cases h
          refine obj_plain_assigned hf ?_ (assignFields_ok_assigned u5 ns l l₂ hf)
          intro v hv
          rw [hv] at hsrc
          cases hsrc
          simp [truthy, hs]
      · rename_i hs
        cases hset : assignSet u5 ns (u5 ns s) l with
        | error e => rw [hset] at h; cases h
        | ok l₁ =>
          rw [hset] at h
          cases h
          by_cases hhk : hasKey l "uuid" = true
          · rw [if_pos hhk]
            refine .obj l₁ ?_ (assignSet_ok_assigned u5 ns (u5 ns s) l l₁ hset)
            intro s' h1 _h2
            rw [assignSet_srk hset hsrc] at h1
            cases h1
            exact assignSet_uuid_replaced hset hhk
          · rw [if_neg hhk]
            refine .obj _ ?_ ?_
            · intro s' h1 _h2
              rw [getField_append_left (assignSet_srk hset hsrc)] at h1
              cases h1
              rw [getField_append_right (assignSet_uuid_none hset (by simpa using hhk))]
              rfl
            · intro p hp
              rcases List.mem_append.mp hp with hp | hp
              · exact assignSet_ok_assigned u5 ns (u5 ns s) l l₁ hset p hp
              · rcases List.mem_singleton.mp hp with rfl
                exact .str _
    · -- source_record_key is present but not a string
      rename_i v hnotstr hsrc
      split at h
      · cases h
      · rename_i htv
        cases hf : assignFields u5 ns l with
        | error e => rw [hf] at h; cases h
        | ok l₂ =>
          rw [hf] at h
          cases h
          refine obj_plain_assigned hf ?_ (assignFields_ok_assigned u5 ns l l₂ hf)
          intro w hw
          rw [hw] at hsrc
          cases hsrc
          simpa using htv
    · -- source_record_key absent
      rename_i hsrc
      cases hf : assignFields u5 ns l with
      | error e => rw [hf] at h; cases h
      | ok l₂ =>
        rw [hf] at h
        cases h
        refine obj_plain_assigned hf ?_ (assignFields_ok_assigned u5 ns l l₂ hf)
        intro v hv
        rw [hv] at hsrc
        cases hsrc

theorem assignList_ok_assigned (u5 : String → String → String) (ns : String) :
    ∀ (l l' : List Json), assignList u5 ns l = .ok l' → ∀ x ∈ l', UuidAssigned u5 ns x
  | [], l', h => by
    simp only [assignList] at h
    cases h
    intro x hx
    cases hx
  | j :: rest, l', h => by
    simp only [assignList] at h
    cases hv : assignUuids u5 ns j with
    | error e => rw [hv] at h; cases h
    | ok j' =>
      rw [hv] at h
      cases hr : assignList u5 ns rest with
      | error e => rw [hr] at h; cases h
      | ok rest' =>
        rw [hr] at h
        cases h
        intro x hx
        rcases List.mem_cons.mp hx with rfl | hx
        · exact assign_ok_assigned u5 ns j _ hv
        · exact assignList_ok_assigned u5 ns rest rest' hr x hx

theorem assignFields_ok_assigned (u5 : String → String → String) (ns : String) :
    ∀ (l l' : List (String × Json)), assignFields u5 ns l = .ok l' →
      ∀ p ∈ l', UuidAssigned u5 ns p.2
  | [], l', h => by
    simp only [assignFields] at h
    cases h
    intro p hp
    cases hp
  | (k, v) :: rest, l', h => by
    simp only [assignFields] at h
    cases hv : assignUuids u5 ns v with
    | error e => rw [hv] at h; cases h
    | ok v' =>
      rw [hv] at h
      cases hr : assignFields u5 ns rest with
      | error e => rw [hr] at h; cases h
      | ok rest' =>
        rw [hr] at h
        cases h
        intro p hp
        rcases List.mem_cons.mp hp with rfl | hp
        · exact assign_ok_assigned u5 ns v v' hv
        · exact assignFields_ok_assigned u5 ns rest rest' hr p hp

theorem assignSet_ok_assigned (u5 : String → String → String) (ns : String) :
    ∀ (u : String) (l l' : List (String × Json)), assignSet u5 ns u l = .ok l' →
      ∀ p ∈ l', UuidAssigned u5 ns p.2
  | u, [], l', h => by
    simp only [assignSet] at h
    cases h
    intro p hp
    cases hp
  | u, (k, v) :: rest, l', h => by
    simp only [assignSet] at h
    by_cases hk : k = "uuid"
    · rw [if_pos hk] at h
      cases hr : assignSet u5 ns u rest with
      | error e => rw [hr] at h; cases h
      | ok rest' =>
        rw [hr] at h
        cases h
        intro p hp
        rcases List.mem_cons.mp hp with rfl | hp
        · exact .str u
        · exact assignSet_ok_assigned u5 ns u rest rest' hr p hp
    · rw [if_neg hk] at h
      cases hv : assignUuids u5 ns v with
      | error e => rw [hv] at h; cases h
      | ok v' =>
        rw [hv] at h
        cases hr : assignSet u5 ns u rest with
        | error e => rw [hr] at h; cases h
        | ok rest' =>
          rw [hr] at h
          cases h
          intro p hp
          rcases List.mem_cons.mp hp with rfl | hp
          · exact assign_ok_assigned u5 ns v v' hv
          · exact assignSet_ok_assigned u5 ns u rest rest' hr p hp

end

section IdemLemmas

variable {u5 : String → String → String} {ns : String}

theorem assignSet_singleton_uuid {u : String} :
    assignSet u5 ns u [("uuid", Json.str u)] = .ok [("uuid", Json.str u)] := by
  simp [assignSet]

theorem assignSet_append {u : String} : ∀ {a : List (String × Json)}
    {b a' b' : List (String × Json)},
    assignSet u5 ns u a = .ok a' → assignSet u5 ns u b = .ok b' →
    assignSet u5 ns u (a ++ b) = .ok (a' ++ b')
  | [], b, a', b', ha, hb => by
    simp only [assignSet] at ha
    cases ha
    simpa using hb
  | (k, v) :: rest, b, a', b', ha, hb => by
    rw [List.cons_append]
    simp only [assignSet] at ha ⊢
    by_cases hk : k = "uuid"
    · rw [if_pos hk] at ha ⊢
      cases hr : assignSet u5 ns u rest with
      | error e => rw [hr] at ha; cases ha
      | ok rest' =>
        rw [hr] at ha
        cases ha
        rw [assignSet_append hr hb]
        rfl
    · rw [if_neg hk] at ha ⊢
      cases hv : assignUuids u5 ns v with
      | error e => rw [hv] at ha; cases ha
      | ok v' =>
        rw [hv] at ha
        cases hr : assignSet u5 ns u rest with
        | error e => rw [hr] at ha; cases ha
        | ok rest' =>
          rw [hr] at ha
          cases ha
          rw [assignSet_append hr hb]
          rfl

theorem hasKey_append {a b : List (String × Json)} {key : String} :
    hasKey (a ++ b) key = (hasKey a key || hasKey b key) := by
  simp [hasKey, List.any_append]

end IdemLemmas

mutual

theorem assign_ok_idem (u5 : String → String → String) (ns : String) :
    ∀ (j j' : Json), assignUuids u5 ns j = .ok j' → assignUuids u5 ns j' = .ok j'
  | .null, _, h => by cases h; rfl
  | .bool b, _, h => by cases h; rfl
  | .num n, _, h => by cases h; rfl
  | .str s, _, h => by cases h; rfl
  | .file s, _, h => by cases h; rfl
  | .arr l, j', h => by
    simp only [assignUuids] at h
    cases hl : assignList u5 ns l with
    | error e => rw [hl] at h; cases h
    | ok l' =>
      rw [hl] at h
      cases h
      simp [assignUuids, assignList_ok_idem u5 ns l l' hl]
  | .obj l, j', h => by
    simp only [assignUuids] at h
    split at h
    · rename_i s hsrc
      split at h
      · rename_i hs
        cases hf : assignFields u5 ns l with
        | error e => rw [hf] at h; cases h
        | ok l₂ =>
          rw [hf] at h
          cases h
          have hg : getField l₂ "source_record_key" = some (.str s) := by
            rw [assignFields_srk_falsy hf ?_, hsrc]
            intro v hv
            rw [hv] at hsrc
            cases hsrc
            simp [truthy, hs]
          subst hs
          simp [assignUuids, hg, assignFields_ok_idem u5 ns l l₂ hf]
      · rename_i hs
        cases hset : assignSet u5 ns (u5 ns s) l with
        | error e => rw [hset] at h; cases h
        | ok l₁ =>
          rw [hset] at h
          cases h
          by_cases hhk : hasKey l "uuid" = true
          · rw [if_pos hhk]
            have hg : getField l₁ "source_record_key" = some (.str s) :=
              assignSet_srk hset hsrc
            have hB : assignSet u5 ns (u5 ns s) l₁ = .ok l₁ :=
              assignSet_ok_idem u5 ns (u5 ns s) l l₁ hset
            have hhk₁ : hasKey l₁ "uuid" = true := by
              rw [assignSet_hasKey hset]; exact hhk
            simp [assignUuids, hg, hs, hB, hhk₁]
          · rw [if_neg hhk]
            have hg : getField (l₁ ++ [("uuid", Json.str (u5 ns s))]) "source_record_key" =
                some (.str s) := getField_append_left (assignSet_srk hset hsrc)
            have hB : assignSet u5 ns (u5 ns s) (l₁ ++ [("uuid", Json.str (u5 ns s))]) =
                .ok (l₁ ++ [("uuid", Json.str (u5 ns s))]) :=
              assignSet_append (assignSet_ok_idem u5 ns (u5 ns s) l l₁ hset)
                assignSet_singleton_uuid
            have hhk₂ : hasKey (l₁ ++ [("uuid", Json.str (u5 ns s))]) "uuid" = true := by
              rw [hasKey_append]
              simp [hasKey]
            simp [assignUuids, hg, hs, hB, hhk₂]
    · rename_i v hnotstr hsrc
      split at h
      · cases h
      · rename_i htv
        cases hf : assignFields u5 ns l with
        | error e => rw [hf] at h; cases h
        | ok l₂ =>
          rw [hf] at h
          cases h
          have htv' : truthy v = false := by simpa using htv
          have hg : getField l₂ "source_record_key" = some v := by
            rw [assignFields_srk_falsy hf ?_, hsrc]
            intro w hw
            rw [hw] at hsrc
            cases hsrc
            exact htv'
          have hB := assignFields_ok_idem u5 ns l l₂ hf
          cases v with
          | str s => exact absurd rfl (hnotstr s)
          | null => simp [assignUuids, hg, hB, truthy]
          | bool b => simp [assignUuids, hg, truthy] at htv' ⊢; simp [htv', hB]
          | num n => simp [assignUuids, hg, truthy] at htv' ⊢; simp [htv', hB]
          | arr l3 => simp [truthy] at htv'; subst htv'; simp [assignUuids, hg, truthy, hB]
          | obj l3 => simp [truthy] at htv'; subst htv'; simp [assignUuids, hg, truthy, hB]
          | file f => simp [truthy] at htv'
    · rename_i hsrc
      cases hf : assignFields u5 ns l with
      | error e => rw [hf] at h; cases h
      | ok l₂ =>
        rw [hf] at h
        cases h
        have hg : getField l₂ "source_record_key" = none := by
          rw [assignFields_srk_falsy hf ?_, hsrc]
          intro v hv
          rw [hv] at hsrc
          cases hsrc
        simp [assignUuids, hg, assignFields_ok_idem u5 ns l l₂ hf]

theorem assignList_ok_idem (u5 : String → String → String) (ns : String) :
    ∀ (l l' : List Json), assignList u5 ns l = .ok l' → assignList u5 ns l' = .ok l'
  | [], _, h => by
    simp only [assignList] at h
    cases h
    rfl
  | j :: rest, l', h => by
    simp only [assignList] at h
    cases hv : assignUuids u5 ns j with
    | error e => rw [hv] at h; cases h
    | ok j' =>
      rw [hv] at h
      cases hr : assignList u5 ns rest with
      | error e => rw [hr] at h; cases h
      | ok rest' =>
        rw [hr] at h
        cases h
        simp [assignList, assign_ok_idem u5 ns j j' hv, assignList_ok_idem u5 ns rest rest' hr]

theorem assignFields_ok_idem (u5 : String → String → String) (ns : String) :
    ∀ (l l' : List (String × Json)), assignFields u5 ns l = .ok l' →
      assignFields u5 ns l' = .ok l'
  | [], _, h => by
    simp only [assignFields] at h
    cases h
    rfl
  | (k, v) :: rest, l', h => by
    simp only [assignFields] at h
    cases hv : assignUuids u5 ns v with
    | error e => rw [hv] at h; cases h
    | ok v' =>
      rw [hv] at h
      cases hr : assignFields u5 ns rest with
      | error e => rw [hr] at h; cases h
      | ok rest' =>
        rw [hr] at h
        cases h
        simp [assignFields, assign_ok_idem u5 ns v v' hv,
          assignFields_ok_idem u5 ns rest rest' hr]

theorem assignSet_ok_idem (u5 : String → String → String) (ns : String) :
    ∀ (u : String) (l l' : List (String × Json)), assignSet u5 ns u l = .ok l' →
      assignSet u5 ns u l' = .ok l'
  | u, [], _, h => by
    simp only [assignSet] at h
    cases h
    rfl
  | u, (k, v) :: rest, l', h => by
    simp only [assignSet] at h
    by_cases hk : k = "uuid"
    · rw [if_pos hk] at h
      cases hr : assignSet u5 ns u rest with
      | error e => rw [hr] at h; cases h
      | ok rest' =>
        rw [hr] at h
        cases h
        simp [assignSet, hk, assignSet_ok_idem u5 ns u rest rest' hr]
    · rw [if_neg hk] at h
      cases hv : assignUuids u5 ns v with
      | error e => rw [hv] at h; cases h
      | ok v' =>
        rw [hv] at h
        cases hr : assignSet u5 ns u rest with
        | error e => rw [hr] at h; cases h
        | ok rest' =>
          rw [hr] at h
          cases h
          simp [assignSet, hk, assign_ok_idem u5 ns v v' hv,
            assignSet_ok_idem u5 ns u rest rest' hr]

end


/-! ### Claim C1: uuid assignment

`__assign_uuids` (transfer_handler.py, lines 1399-1407) recursively walks a
JSON value; for a dict whose `source_record_key` is truthy it sets
`data["uuid"] = str(uuid5(self.uuid, data["source_record_key"]))` and then
recurses into every value; for a list it recurses into every element.

The claim as literally stated fails: an object carrying
`"source_record_key": ""` (a falsy value) is left without a uuid, because the
code tests `if data.get("source_record_key"):`.  The amended claim (uuid
inserted for every object whose source_record_key is a truthy value, hence a
non-empty string; truthy non-string keys raise TypeError inside `uuid5`)
holds, together with idempotence.
-/

/-- A concrete stand-in for `uuid5` used only to instantiate witnesses and
counterexamples; the claim theorems hold for every derivation function. -/
def uuid5Demo (ns key : String) : String := ns ++ ":" ++ key

/-- C1 (amended): on any value it processes without raising, `__assign_uuids`
leaves every nested object that carries a non-empty-string
`source_record_key` with `uuid = uuid5(transaction_id, source_record_key)`
(at any depth, including inside lists), and the assignment is idempotent:
re-running it on its own output returns that output unchanged. -/
theorem claim_C1 (u5 : String → String → String) (ns : String) (j j' : Json)
    (h : assignUuids u5 ns j = .ok j') :
    UuidAssigned u5 ns j' ∧ assignUuids u5 ns j' = .ok j' :=
  ⟨assign_ok_assigned u5 ns j j' h, assign_ok_idem u5 ns j j' h⟩

/-- C1 counterexample: the claim as stated says every nested object carrying a
`source_record_key` gets `uuid = uuid5(ns, key)` inserted.  An object whose
`source_record_key` is the empty string carries the key, yet the code leaves
it unchanged, with no `uuid` field at all. -/
theorem claim_C1_counterexample :
    assignUuids uuid5Demo "ns" (.obj [("source_record_key", .str "")]) =
      .ok (.obj [("source_record_key", .str "")]) ∧
    getField [("source_record_key", Json.str "")] "uuid" = none :=
  ⟨rfl, rfl⟩

/-- C1 witness: the amended theorem applied to a one-field record. -/
theorem claim_C1_witness :
    UuidAssigned uuid5Demo "ns"
      (.obj [("source_record_key", .str "journals:1"), ("uuid", .str "ns:journals:1")]) ∧
    assignUuids uuid5Demo "ns"
      (.obj [("source_record_key", .str "journals:1"), ("uuid", .str "ns:journals:1")]) =
      .ok (.obj [("source_record_key", .str "journals:1"), ("uuid", .str "ns:journals:1")]) :=
  claim_C1 uuid5Demo "ns" (.obj [("source_record_key", .str "journals:1")])
    (.obj [("source_record_key", .str "journals:1"), ("uuid", .str "ns:journals:1")]) rfl

/-! ### Fetch response handling (`_handle_fetch_response`, lines 493-523)

For `content_type == "json"` the handler parses the body, runs
`__assign_uuids`, sorts lists by `d["source_record_key"]` when `order` is
set, rejects a blank body (`content in [None, ""]`) with
`ServerResponseError`, and otherwise writes the content to the destination
file.  The `Except` result models the write: an error means nothing was
written, `ok c` means `c` was serialized into the destination file.
-/

/-- Python `d[key] = value`: replace the value in place when the key exists,
else append the new pair at the end (dict insertion order). -/
def setField (l : List (String × Json)) (key : String) (v : Json) : List (String × Json) :=
  if hasKey l key then l.map (fun p => if p.1 = key then (key, v) else p)
  else l ++ [(key, v)]

/-- The sort key `d["source_record_key"]`: KeyError when a dict entry lacks
the key, TypeError when the entry is not a dict.  Index entries carry string
keys of the form `type:pk`; Python would also sort an all-numeric key list,
which this model folds into the type error, since comparing a number with the
string keys of real indexes raises TypeError anyway. -/
def srkOf : Json → Except PyErr String
  | .obj l =>
    match getField l "source_record_key" with
    | some (.str s) => .ok s
    | some _ => .error .typeErr
    | none => .error .keyErr
  | _ => .error .typeErr

/-- Pair every list element with its sort key, failing like Python where the
key function raises. -/
def srkKeyed : List Json → Except PyErr (List (String × Json))
  | [] => .ok []
  | j :: rest =>
    match srkOf j with
    | .error e => .error e
    | .ok k =>
      match srkKeyed rest with
      | .error e => .error e
      | .ok rest' => .ok ((k, j) :: rest')

/-- Python string comparison: strings compare lexicographically by code
point, which is exactly the lexicographic order on their character lists. -/
def pyStrLe (a b : String) : Bool := decide (a.data ≤ b.data)

/-- Python `sorted(content, key=lambda d: d["source_record_key"])`: a stable
sort by key.  A stable sort has a unique output, so insertion sort models
Timsort exactly. -/
def sortByKey (l : List Json) : Except PyErr (List Json) :=
  match srkKeyed l with
  | .error e => .error e
  | .ok keyed =>
    .ok ((List.insertionSort (fun a b => pyStrLe a.1 b.1 = true) keyed).map (fun p => p.2))

/-- The `order and (type(content) is list)` step of `_handle_fetch_response`. -/
def orderContent (order : Bool) (content : Json) : Except PyErr Json :=
  if order then
    match content with
    | .arr l =>
      match sortByKey l with
      | .error e => .error e
      | .ok l' => .ok (.arr l')
    | c => .ok c
  else .ok content

/-- The blank check `if content in [None, ""]`: empty arrays and objects are
allowed, a null or empty-string body raises ServerResponseError. -/
def blankCheck : Json → Except PyErr Json
  | .null => .error .serverResponse
  | .str s => if s = "" then .error .serverResponse else .ok (.str s)
  | c => .ok c

/-- `_handle_fetch_response` for JSON content: assign uuids, optionally sort,
reject blank bodies, and return what gets written to the destination file. -/
def handleFetchResponse (u5 : String → String → String) (ns : String) (order : Bool)
    (body : Json) : Except PyErr Json :=
  match assignUuids u5 ns body with
  | .error e => .error e
  | .ok content =>
    match orderContent order content with
    | .error e => .error e
    | .ok c => blankCheck c

mutual

theorem assign_error_typeErr (u5 : String → String → String) (ns : String) :
    ∀ (j : Json) (e : PyErr), assignUuids u5 ns j = .error e → e = .typeErr
  | .null, _, h => by cases h
  | .bool b, _, h => by cases h
  | .num n, _, h => by cases h
  | .str s, _, h => by cases h
  | .file s, _, h => by cases h
  | .arr l, e, h => by
    simp only [assignUuids] at h
    cases hl : assignList u5 ns l with
    | error e' =>
      rw [hl] at h
      cases h
      exact assignList_error_typeErr u5 ns l e hl
    | ok l' => rw [hl] at h; cases h
  | .obj l, e, h => by
    simp only [assignUuids] at h
    split at h
    · rename_i s _hsrc
      split at h
      · cases hf : assignFields u5 ns l with
        | error e' =>
          rw [hf] at h
          cases h
          exact assignFields_error_typeErr u5 ns l e hf
        | ok l₂ => rw [hf] at h; cases h
      · rename_i hs
        cases hset : assignSet u5 ns (u5 ns s) l with
        | error e' =>
          rw [hset] at h
          cases h
          exact assignSet_error_typeErr u5 ns (u5 ns s) l e hset
        | ok l₁ => rw [hset] at h; cases h
    · split at h
      · cases h; rfl
      · cases hf : assignFields u5 ns l with
        | error e' =>
          rw [hf] at h
          cases h
          exact assignFields_error_typeErr u5 ns l e hf
        | ok l₂ => rw [hf] at h; cases h
    · cases hf : assignFields u5 ns l with
      | error e' =>
        rw [hf] at h
        cases h
        exact assignFields_error_typeErr u5 ns l e hf
      | ok l₂ => rw [hf] at h; cases h

theorem assignList_error_typeErr (u5 : String → String → String) (ns : String) :
    ∀ (l : List Json) (e : PyErr), assignList u5 ns l = .error e → e = .typeErr
  | [], _, h => by cases h
  | j :: rest, e, h => by
    simp only [assignList] at h
    cases hv : assignUuids u5 ns j with
    | error e' =>
      rw [hv] at h
      cases h
      exact assign_error_typeErr u5 ns j e hv
    | ok j' =>
      rw [hv] at h
      cases hr : assignList u5 ns rest with
      | error e' =>
        rw [hr] at h
        cases h
        exact assignList_error_typeErr u5 ns rest e hr
      | ok rest' => rw [hr] at h; cases h

theorem assignFields_error_typeErr (u5 : String → String → String) (ns : String) :
    ∀ (l : List (String × Json)) (e : PyErr), assignFields u5 ns l = .error e → e = .typeErr
  | [], _, h => by cases h
  | (k, v) :: rest, e, h => by
    simp only [assignFields] at h
    cases hv : assignUuids u5 ns v with
    | error e' =>
      rw [hv] at h
      cases h
      exact assign_error_typeErr u5 ns v e hv
    | ok v' =>
      rw [hv] at h
      cases hr : assignFields u5 ns rest with
      | error e' =>
        rw [hr] at h
        cases h
        exact assignFields_error_typeErr u5 ns rest e hr
      | ok rest' => rw [hr] at h; cases h

theorem assignSet_error_typeErr (u5 : String → String → String) (ns : String) :
    ∀ (u : String) (l : List (String × Json)) (e : PyErr),
      assignSet u5 ns u l = .error e → e = .typeErr
  | u, [], _, h => by cases h
  | u, (k, v) :: rest, e, h => by
    simp only [assignSet] at h
    by_cases hk : k = "uuid"
    · rw [if_pos hk] at h
      cases hr : assignSet u5 ns u rest with
      | error e' =>
        rw [hr] at h
        cases h
        exact assignSet_error_typeErr u5 ns u rest e hr
      | ok rest' => rw [hr] at h; cases h
    · rw [if_neg hk] at h
      cases hv : assignUuids u5 ns v with
      | error e' =>
        rw [hv] at h
        cases h
        exact assign_error_typeErr u5 ns v e hv
      | ok v' =>
        rw [hv] at h
        cases hr : assignSet u5 ns u rest with
        | error e' =>
          rw [hr] at h
          cases h
          exact assignSet_error_typeErr u5 ns u rest e hr
        | ok rest' => rw [hr] at h; cases h

end

section ResponseLemmas

variable {u5 : String → String → String} {ns : String}

theorem assign_arr_shape {l : List Json} {c : Json}
    (h : assignUuids u5 ns (.arr l) = .ok c) : ∃ l', c = .arr l' := by
  simp only [assignUuids] at h
  cases hl : assignList u5 ns l with
  | error e => rw [hl] at h; cases h
  | ok l' => rw [hl] at h; cases h; exact ⟨l', rfl⟩

theorem assign_obj_shape {l : List (String × Json)} {c : Json}
    (h : assignUuids u5 ns (.obj l) = .ok c) : ∃ l', c = .obj l' := by
  simp only [assignUuids] at h
  split at h
  · rename_i s _hsrc
    split at h
    · cases hf : assignFields u5 ns l with
      | error e => rw [hf] at h; cases h
      | ok l₂ => rw [hf] at h; cases h; exact ⟨l₂, rfl⟩
    · cases hset : assignSet u5 ns (u5 ns s) l with
      | error e => rw [hset] at h; cases h
      | ok l₁ => rw [hset] at h; cases h; exact ⟨_, rfl⟩
  · split at h
    · cases h
    · cases hf : assignFields u5 ns l with
      | error e => rw [hf] at h; cases h
      | ok l₂ => rw [hf] at h; cases h; exact ⟨l₂, rfl⟩
  · cases hf : assignFields u5 ns l with
    | error e => rw [hf] at h; cases h
    | ok l₂ => rw [hf] at h; cases h; exact ⟨l₂, rfl⟩

theorem srkOf_error {j : Json} {e : PyErr} (h : srkOf j = .error e) :
    e = .keyErr ∨ e = .typeErr := by
  cases j with
  | obj l =>
    simp only [srkOf] at h
    split at h
    · cases h
    · cases h; exact Or.inr rfl
    · cases h; exact Or.inl rfl
  | null => cases h; exact Or.inr rfl
  | bool b => cases h; exact Or.inr rfl
  | num n => cases h; exact Or.inr rfl
  | str s => cases h; exact Or.inr rfl
  | arr l => cases h; exact Or.inr rfl
  | file s => cases h; exact Or.inr rfl

theorem srkKeyed_error : ∀ {l : List Json} {e : PyErr},
    srkKeyed l = .error e → e = .keyErr ∨ e = .typeErr
  | [], _, h => by cases h
  | j :: rest, e, h => by
    simp only [srkKeyed] at h
    cases hj : srkOf j with
    | error e' => rw [hj] at h; cases h; exact srkOf_error hj
    | ok k =>
      rw [hj] at h
      cases hr : srkKeyed rest with
      | error e' => rw [hr] at h; cases h; exact srkKeyed_error hr
      | ok rest' => rw [hr] at h; cases h

theorem sortByKey_error {l : List Json} {e : PyErr} (h : sortByKey l = .error e) :
    e = .keyErr ∨ e = .typeErr := by
  simp only [sortByKey] at h
  cases hk : srkKeyed l with
  | error e' => rw [hk] at h; cases h; exact srkKeyed_error hk
  | ok keyed => rw [hk] at h; cases h

theorem blankCheck_ok_eq {x y : Json} (h : blankCheck x = .ok y) : y = x := by
  cases x with
  | null => cases h
  | str s =>
    simp only [blankCheck] at h
    split at h
    · cases h
    · cases h; rfl
  | bool b => cases h; rfl
  | num n => cases h; rfl
  | arr l => cases h; rfl
  | obj l => cases h; rfl
  | file s => cases h; rfl

theorem orderContent_not_serverResponse {order : Bool} {c : Json} {e : PyErr}
    (h : orderContent order c = .error e) : e ≠ .serverResponse := by
  cases order with
  | false => cases h
  | true =>
    cases c with
    | arr l =>
      simp only [orderContent] at h
      cases hs : sortByKey l with
      | error e' =>
        rw [hs] at h
        cases h
        rcases sortByKey_error hs with rfl | rfl <;> simp
      | ok l' => rw [hs] at h; cases h
    | null => cases h
    | bool b => cases h
    | num n => cases h
    | str s => cases h
    | obj l => cases h
    | file s => cases h

end ResponseLemmas

/-! ### Claim C10: blank-response handling -/

/-- C10: a ServerResponseError is raised by `_handle_fetch_response` exactly
when the parsed body is null or the empty string (and then nothing is
written, since the error precedes the file write); a body parsing to an
empty array or empty object is accepted and written like any other content;
and every written value is the uuid-assigned (and, when requested, sorted)
content, so both steps happen before the blank check. -/
theorem claim_C10 (u5 : String → String → String) (ns : String) (order : Bool) (body : Json) :
    (handleFetchResponse u5 ns order body = .error .serverResponse ↔
      body = .null ∨ body = .str "") ∧
    (∀ out, handleFetchResponse u5 ns order body = .ok out →
      ∃ c, assignUuids u5 ns body = .ok c ∧ orderContent order c = .ok out) ∧
    handleFetchResponse u5 ns order (.arr []) = .ok (.arr []) ∧
    handleFetchResponse u5 ns order (.obj []) = .ok (.obj []) := by
  refine ⟨⟨?_, ?_⟩, ?_, ?_, ?_⟩
  · -- only a blank body raises ServerResponseError
    intro h
    cases body with
    | null => exact Or.inl rfl
    | str s =>
      by_cases hs : s = ""
      · exact Or.inr (by rw [hs])
      · exfalso
        cases order <;>
          simp [handleFetchResponse, assignUuids, orderContent, blankCheck, hs] at h
    | bool b =>
      exfalso
      cases order <;>
        simp [handleFetchResponse, assignUuids, orderContent, blankCheck] at h
    | num n =>
      exfalso
      cases order <;>
        simp [handleFetchResponse, assignUuids, orderContent, blankCheck] at h
    | file s =>
      exfalso
      cases order <;>
        simp [handleFetchResponse, assignUuids, orderContent, blankCheck] at h
    | arr l =>
      exfalso
      simp only [handleFetchResponse] at h
      split at h
      · rename_i e ha
        cases h
        have := assign_error_typeErr u5 ns (.arr l) _ ha
        cases this
      · rename_i c ha
        obtain ⟨l', rfl⟩ := assign_arr_shape ha
        split at h
        · rename_i e ho
          cases h
          exact orderContent_not_serverResponse ho rfl
        · rename_i c' ho
          have : ∃ l'', c' = Json.arr l'' := by
            cases order with
            | false => cases ho; exact ⟨l', rfl⟩
            | true =>
              simp only [orderContent] at ho
              cases hsk : sortByKey l' with
              | error e => rw [hsk] at ho; cases ho
              | ok l'' => rw [hsk] at ho; cases ho; exact ⟨l'', rfl⟩
          obtain ⟨l'', rfl⟩ := this
          cases h
    | obj l =>
      exfalso
      simp only [handleFetchResponse] at h
      split at h
      · rename_i e ha
        cases h
        have := assign_error_typeErr u5 ns (.obj l) _ ha
        cases this
      · rename_i c ha
        obtain ⟨l', rfl⟩ := assign_obj_shape ha
        split at h
        · rename_i e ho
          cases h
          exact orderContent_not_serverResponse ho rfl
        · rename_i c' ho
          have : c' = Json.obj l' := by
            cases order with
            | false => cases ho; rfl
            | true => cases ho; rfl
          subst this
          cases h
  · -- a blank body raises ServerResponseError
    rintro (rfl | rfl) <;> cases order <;> rfl
  · -- every written value is the assigned and then ordered content
    intro out h
    simp only [handleFetchResponse] at h
    split at h
    · cases h
    · rename_i c ha
      split at h
      · cases h
      · rename_i c' ho
        have : out = c' := blankCheck_ok_eq h
        subst this
        exact ⟨c, ha, ho⟩
  · cases order <;> rfl
  · cases order <;> rfl

/-- C10 witness: the blank-iff applied at a null body. -/
theorem claim_C10_witness :
    handleFetchResponse uuid5Demo "ns" true Json.null = .error .serverResponse :=
  (claim_C10 uuid5Demo "ns" true Json.null).1.mpr (Or.inl rfl)

/-! ### Claim C4: index sortedness

All regular index writes go through `_do_fetch(url, file, order=True)`, so
`_handle_fetch_response` sorts them by `source_record_key` before writing.
The users index written by `_index_roles` (lines 657-682) does not: it is
built as `list(set(existing_keys + new_keys))`, and a Python set enumerates
in hash order, not sorted order.  The claim as stated is therefore false.
-/

/-- Keys of the entries of a JSON list, in order, failing like the Python
key function `d["source_record_key"]`. -/
def keysOf (l : List Json) : Except PyErr (List String) :=
  match srkKeyed l with
  | .error e => .error e
  | .ok kl => .ok (kl.map (fun p => p.1))

/-- `[d.get("source_record_key") for d in existing_users_index]` followed by
the later `self.__uuid(k)` calls: a non-dict entry raises AttributeError at
`d.get`; a missing or non-string key reaches `uuid5` as a non-string and
raises TypeError there.  The composite extraction is modelled in one step. -/
def existingUserKeys : List Json → Except PyErr (List String)
  | [] => .ok []
  | .obj l :: rest =>
    match getField l "source_record_key" with
    | some (.str s) =>
      match existingUserKeys rest with
      | .error e => .error e
      | .ok rest' => .ok (s :: rest')
    | some _ => .error .typeErr
    | none => .error .typeErr
  | _ :: _ => .error .attributeErr

/-- `[d["user"]["source_record_key"] for d in roles_index if d.get("user")]`
with the later `self.__uuid(k)` call folded in, as above. -/
def rolesUserKeys : List Json → Except PyErr (List String)
  | [] => .ok []
  | .obj l :: rest =>
    match getField l "user" with
    | some u =>
      if truthy u then
        match u with
        | .obj ul =>
          match getField ul "source_record_key" with
          | some (.str s) =>
            match rolesUserKeys rest with
            | .error e => .error e
            | .ok rest' => .ok (s :: rest')
          | some _ => .error .typeErr
          | none => .error .keyErr
        | _ => .error .typeErr
      else rolesUserKeys rest
    | none => rolesUserKeys rest
  | _ :: _ => .error .attributeErr

/-- CPython `list(set(xs))` enumerates the set in hash order, which for
strings varies with PYTHONHASHSEED.  This models one admissible enumeration,
first-occurrence order; a sortedness guarantee would have to hold for every
admissible enumeration, and it already fails for this one. -/
def pySetList : List String → List String → List String
  | _, [] => []
  | seen, x :: rest =>
    if x ∈ seen then pySetList seen rest else x :: pySetList (x :: seen) rest

/-- The users-index content computed by `_index_roles`: existing keys merged
with the keys of the nested `user` objects of the fetched roles index,
deduplicated through a set, each rebuilt as a stub with a derived uuid, and
written with `_replace_file_contents` without any sorting. -/
def indexRolesUsersContent (u5 : String → String → String) (ns : String)
    (existingIndex rolesIndex : List Json) : Except PyErr (List Json) :=
  match existingUserKeys existingIndex with
  | .error e => .error e
  | .ok ek =>
    match rolesUserKeys rolesIndex with
    | .error e => .error e
    | .ok nk =>
      .ok ((pySetList [] (ek ++ nk)).map (fun k =>
        .obj [("source_record_key", .str k), ("uuid", .str (u5 ns k))]))

section SortLemmas

instance : IsTotal (String × Json) (fun a b => pyStrLe a.1 b.1 = true) :=
  ⟨fun a b => by
    simp only [pyStrLe, decide_eq_true_eq]
    exact le_total a.1.data b.1.data⟩

instance : IsTrans (String × Json) (fun a b => pyStrLe a.1 b.1 = true) :=
  ⟨fun _ _ _ hab hbc => by
    simp only [pyStrLe, decide_eq_true_eq] at hab hbc ⊢
    exact le_trans hab hbc⟩

variable {u5 : String → String → String} {ns : String}

theorem srkKeyed_spec : ∀ {l : List Json} {kl : List (String × Json)},
    srkKeyed l = .ok kl → ∀ p ∈ kl, srkOf p.2 = .ok p.1
  | [], kl, h => by
    cases h
    intro p hp
    cases hp
  | j :: rest, kl, h => by
    simp only [srkKeyed] at h
    cases hj : srkOf j with
    | error e => rw [hj] at h; cases h
    | ok k =>
      rw [hj] at h
      cases hr : srkKeyed rest with
      | error e => rw [hr] at h; cases h
      | ok rest' =>
        rw [hr] at h
        cases h
        intro p hp
        rcases List.mem_cons.mp hp with rfl | hp
        · exact hj
        · exact srkKeyed_spec hr p hp

theorem srkKeyed_of_spec : ∀ {kl : List (String × Json)},
    (∀ p ∈ kl, srkOf p.2 = .ok p.1) → srkKeyed (kl.map (fun p => p.2)) = .ok kl
  | [], _ => rfl
  | p :: rest, h => by
    simp only [List.map_cons, srkKeyed]
    rw [h p (List.mem_cons_self p rest)]
    rw [srkKeyed_of_spec (fun q hq => h q (List.mem_cons_of_mem p hq))]

theorem sortByKey_sorted {l out : List Json} (h : sortByKey l = .ok out) :
    ∃ ks, keysOf out = .ok ks ∧ List.Chain' (fun a b => pyStrLe a b = true) ks := by
  simp only [sortByKey] at h
  cases hk : srkKeyed l with
  | error e => rw [hk] at h; cases h
  | ok keyed =>
    rw [hk] at h
    cases h
    have hperm :=
      List.perm_insertionSort (fun a b : String × Json => pyStrLe a.1 b.1 = true) keyed
    have hspec : ∀ p ∈
        List.insertionSort (fun a b : String × Json => pyStrLe a.1 b.1 = true) keyed,
        srkOf p.2 = .ok p.1 := by
      intro p hp
      exact srkKeyed_spec hk p (hperm.mem_iff.mp hp)
    have hsorted :=
      List.sorted_insertionSort (fun a b : String × Json => pyStrLe a.1 b.1 = true) keyed
    refine ⟨(List.insertionSort (fun a b : String × Json => pyStrLe a.1 b.1 = true) keyed).map
      (fun p => p.1), ?_, ?_⟩
    · simp only [keysOf]
      rw [srkKeyed_of_spec hspec]
    · refine List.Pairwise.chain' ?_
      rw [List.pairwise_map]
      exact hsorted

theorem orderContent_true_arr {l : List Json} :
    orderContent true (.arr l) =
      match sortByKey l with
      | .error e => .error e
      | .ok l' => .ok (.arr l') := rfl

theorem pySetList_nodup : ∀ (l seen : List String),
    (pySetList seen l).Nodup ∧ ∀ x ∈ pySetList seen l, x ∉ seen
  | [], seen => ⟨List.nodup_nil, by intro x hx; cases hx⟩
  | x :: rest, seen => by
    by_cases hx : x ∈ seen
    · simp only [pySetList, if_pos hx]
      exact pySetList_nodup rest seen
    · simp only [pySetList, if_neg hx]
      obtain ⟨hnd, hmem⟩ := pySetList_nodup rest (x :: seen)
      refine ⟨List.nodup_cons.mpr ⟨?_, hnd⟩, ?_⟩
      · intro hmemx
        exact hmem x hmemx (List.mem_cons_self x seen)
      · intro y hy
        rcases List.mem_cons.mp hy with rfl | hy
        · exact hx
        · intro hyseen
          exact hmem y hy (List.mem_cons_of_mem x hyseen)

end SortLemmas

/-- C4 (amended): every index.json written through the fetch-response path
with ordering requested is a JSON array whose entries are non-decreasing by
source_record_key; but the `<root>/users/index.json` produced by the roles
index handler merge is only deduplicated, in set-enumeration order, not
sorted. -/
theorem claim_C4 (u5 : String → String → String) (ns : String) :
    (∀ body out, handleFetchResponse u5 ns true body = .ok (.arr out) →
      ∃ ks, keysOf out = .ok ks ∧ List.Chain' (fun a b => pyStrLe a b = true) ks) ∧
    (∀ existingIndex rolesIndex out,
      indexRolesUsersContent u5 ns existingIndex rolesIndex = .ok out →
      ∃ ks : List String, ks.Nodup ∧ out = ks.map (fun k =>
        Json.obj [("source_record_key", .str k), ("uuid", .str (u5 ns k))])) := by
  constructor
  · intro body out h
    simp only [handleFetchResponse] at h
    split at h
    · cases h
    · rename_i c ha
      split at h
      · cases h
      · rename_i c' ho
        have hc' := blankCheck_ok_eq h
        subst hc'
        cases c with
        | arr l =>
          rw [orderContent_true_arr] at ho
          cases hs : sortByKey l with
          | error e => rw [hs] at ho; cases ho
          | ok l' =>
            rw [hs] at ho
            cases ho
            exact sortByKey_sorted hs
        | null => cases ho
        | bool b => cases ho
        | num n => cases ho
        | str s => cases ho
        | obj l => cases ho
        | file s => cases ho
  · intro existingIndex rolesIndex out h
    simp only [indexRolesUsersContent] at h
    split at h
    · cases h
    · rename_i ek hek
      split at h
      · cases h
      · rename_i nk hnk
        cases h
        exact ⟨pySetList [] (ek ++ nk), (pySetList_nodup (ek ++ nk) []).1, rfl⟩

/-- C4 counterexample: a roles index, itself sorted by the roles keys, whose
nested users appear with descending user keys.  The merge writes the users
index in that order, which is not non-decreasing by source_record_key. -/
theorem claim_C4_counterexample :
    indexRolesUsersContent uuid5Demo "ns" []
      [.obj [("source_record_key", .str "roles:1"),
             ("user", .obj [("source_record_key", .str "users:9")])],
       .obj [("source_record_key", .str "roles:2"),
             ("user", .obj [("source_record_key", .str "users:3")])]] =
      .ok [.obj [("source_record_key", .str "users:9"), ("uuid", .str "ns:users:9")],
           .obj [("source_record_key", .str "users:3"), ("uuid", .str "ns:users:3")]] ∧
    keysOf [.obj [("source_record_key", .str "users:9"), ("uuid", .str "ns:users:9")],
            .obj [("source_record_key", .str "users:3"), ("uuid", .str "ns:users:3")]] =
      .ok ["users:9", "users:3"] ∧
    ¬ List.Chain' (fun a b => pyStrLe a b = true) ["users:9", "users:3"] := by
  refine ⟨rfl, rfl, ?_⟩
  intro h
  exact absurd (List.chain'_cons.mp h).1 (by decide)

/-- C4 witness: the amended theorem applied to a two-element fetched index
arriving out of order, and to the counterexample merge. -/
theorem claim_C4_witness :
    (∃ ks, keysOf [.obj [("source_record_key", .str "a:1"), ("uuid", .str "ns:a:1")],
        .obj [("source_record_key", .str "b:2"), ("uuid", .str "ns:b:2")]] = .ok ks ∧
      List.Chain' (fun a b => pyStrLe a b = true) ks) ∧
    (∃ ks : List String, ks.Nodup ∧
      [Json.obj [("source_record_key", .str "users:9"), ("uuid", .str "ns:users:9")],
       Json.obj [("source_record_key", .str "users:3"), ("uuid", .str "ns:users:3")]] =
        ks.map (fun k =>
          Json.obj [("source_record_key", .str k), ("uuid", .str ("ns:" ++ k))])) := by
  constructor
  · exact (claim_C4 uuid5Demo "ns").1
      (.arr [.obj [("source_record_key", .str "b:2")],
             .obj [("source_record_key", .str "a:1")]])
      [.obj [("source_record_key", .str "a:1"), ("uuid", .str "ns:a:1")],
       .obj [("source_record_key", .str "b:2"), ("uuid", .str "ns:b:2")]] rfl
  · exact (claim_C4 uuid5Demo "ns").2 []
      [.obj [("source_record_key", .str "roles:1"),
             ("user", .obj [("source_record_key", .str "users:9")])],
       .obj [("source_record_key", .str "roles:2"),
             ("user", .obj [("source_record_key", .str "users:3")])]]
      [.obj [("source_record_key", .str "users:9"), ("uuid", .str "ns:users:9")],
       .obj [("source_record_key", .str "users:3"), ("uuid", .str "ns:users:3")]] rfl

/-! ### Claim C2: push round-trip (`_push_data`, lines 1045-1085)

The handler loads the detail file, collects sibling binaries into a
multipart `files` map, POSTs, and on a response carrying a
`source_record_key` writes `target_record_key` back into the detail file
(with the `files` entry stripped).  The skip on an existing
`target_record_key` is guarded by `self.resume`, a constructor flag that
defaults to False: without it, re-running PUSH POSTs the item again.
-/

/-- Python `l.filter` keeping keys different from `key`: the dict
comprehension `{key: data[key] for key in data if key != "files"}`. -/
def removeField (l : List (String × Json)) (key : String) : List (String × Json) :=
  l.filter (fun p => p.1 != key)

/-- Python `{**a, **b}`: entries of `a` in order, values overridden in place
by `b`, new keys of `b` appended in order. -/
def mergeDicts (a b : List (String × Json)) : List (String × Json) :=
  b.foldl (fun acc p => setField acc p.1 p.2) a

/-- The state `_push_data` sees for one item: the constructor `resume` flag,
whether a target server is configured, the parsed detail file, the names of
the sibling regular files in the item directory, and the JSON the target
answers to an OK POST (`none` models a missing target response, a transport
error answered with continue, or a non-2xx answered with continue; the
observer abort path raises and is outside these claims). -/
structure PushItemEnv where
  resume : Bool
  targetPresent : Bool
  detail : List (String × Json)
  siblingFiles : List String
  serverResponse : Json → Option Json

/-- Outcome of `_push_data` for one item: the returned dict, the detail file
content afterwards, and how many POST requests were issued. -/
structure PushItemResult where
  returned : List (String × Json)
  fileAfter : List (String × Json)
  posts : Nat

/-- The payload after the sibling-file merge: `data["files"] = {}` then
`data["files"] = {**data["files"], **f_dict}` per file, keyed
`<filename>_file` with an opened handle as value. -/
def pushBody (env : PushItemEnv) : List (String × Json) :=
  if env.siblingFiles.length != 0 then
    setField env.detail "files"
      (.obj (env.siblingFiles.foldl
        (fun acc n => mergeDicts acc [(n ++ "_file", Json.file n)]) []))
  else env.detail

/-- `_do_push`: no request when the target is absent, otherwise one POST
whose parsed body (or continue-after-error `None`) comes back. -/
def doPush (env : PushItemEnv) (body : Json) : Option Json × Nat :=
  if env.targetPresent then (env.serverResponse body, 1) else (none, 0)

/-- `_push_data` for one item. -/
def pushDataHandler (env : PushItemEnv) : Except PyErr PushItemResult :=
  let data0 := env.detail
  if env.resume && truthy ((getField data0 "target_record_key").getD .null) then
    .ok { returned := data0, fileAfter := env.detail, posts := 0 }
  else
    let data := pushBody env
    let pr := doPush env (.obj data)
    match pr.1 with
    | some resp =>
      if truthy resp then
        match resp with
        | .obj rl =>
          let srk := (getField rl "source_record_key").getD .null
          if truthy srk then
            let data' := setField data "target_record_key" srk
            .ok { returned := data', fileAfter := removeField data' "files", posts := pr.2 }
          else .ok { returned := data, fileAfter := env.detail, posts := pr.2 }
        | _ => .error .attributeErr
      else .ok { returned := data, fileAfter := env.detail, posts := pr.2 }
    | none => .ok { returned := data, fileAfter := env.detail, posts := pr.2 }

section PushLemmas

theorem getField_map_set {key : String} {v : Json} : ∀ {l : List (String × Json)},
    hasKey l key = true →
    getField (l.map (fun p => if p.1 = key then (key, v) else p)) key = some v
  | [], hk => by simp [hasKey] at hk
  | (k', w') :: rest, hk => by
    rw [List.map_cons]
    show getField ((if k' = key then (key, v) else (k', w')) ::
      rest.map (fun p => if p.1 = key then (key, v) else p)) key = some v
    by_cases hkey : k' = key
    · rw [if_pos hkey]
      simp [getField]
    · rw [if_neg hkey]
      have hk' : hasKey rest key = true := by simpa [hasKey, hkey] using hk
      simp only [getField, if_neg hkey]
      exact getField_map_set hk'

theorem getField_setField_self {l : List (String × Json)} {key : String} {v : Json} :
    getField (setField l key v) key = some v := by
  by_cases hk : hasKey l key = true
  · simp only [setField, if_pos hk]
    exact getField_map_set hk
  · simp only [setField, if_neg hk]
    rw [getField_append_right (hasKey_false_getField (by simpa using hk))]
    simp [getField]

theorem getField_removeField_ne {l : List (String × Json)} {key key' : String}
    (h : key ≠ key') : getField (removeField l key') key = getField l key := by
  induction l with
  | nil => rfl
  | cons p rest ih =>
    cases p with
    | mk k w =>
      by_cases hk : k = key
      · subst hk
        have : (k != key') = true := by
          simp only [bne_iff_ne]
          exact h
        simp [removeField, List.filter, this, getField]
      · by_cases hk' : (k != key') = true
        · simp only [removeField, List.filter, hk']
          simp only [getField, if_neg hk]
          simpa [removeField] using ih
        · simp only [removeField, List.filter, hk']
          simp only [getField, if_neg hk]
          simpa [removeField] using ih

end PushLemmas

/-- C2 (amended): when a pushed item's POST response carries a truthy
`source_record_key`, the detail file afterwards contains
`target_record_key` equal to that value (with the multipart `files` entry
stripped); and when the handler runs with `resume=True`, an item whose
detail already contains a truthy `target_record_key` is returned unchanged
with no network call.  Without the resume flag the skip does not apply. -/
theorem claim_C2 (env : PushItemEnv) :
    (∀ rl v,
      (env.resume && truthy ((getField env.detail "target_record_key").getD .null)) = false →
      env.targetPresent = true →
      env.serverResponse (.obj (pushBody env)) = some (.obj rl) →
      getField rl "source_record_key" = some v →
      truthy v = true →
      pushDataHandler env = .ok
        { returned := setField (pushBody env) "target_record_key" v,
          fileAfter := removeField (setField (pushBody env) "target_record_key" v) "files",
          posts := 1 } ∧
      getField (removeField (setField (pushBody env) "target_record_key" v) "files")
        "target_record_key" = some v) ∧
    (env.resume = true →
      truthy ((getField env.detail "target_record_key").getD .null) = true →
      pushDataHandler env = .ok { returned := env.detail, fileAfter := env.detail, posts := 0 }) := by
  constructor
  · intro rl v hskip ht hresp hkey hv
    have hne : rl ≠ [] := by
      intro hrl
      rw [hrl] at hkey
      cases hkey
    have htr : truthy (Json.obj rl) = true := by
      simp [truthy, List.isEmpty_iff, hne]
    constructor
    · simp only [pushDataHandler, hskip, Bool.false_eq_true, if_false, doPush, ht, if_true,
        hresp, htr, hkey, Option.getD_some, hv, if_pos]
    · rw [getField_removeField_ne (by simp), getField_setField_self]
  · intro hres htr
    simp only [pushDataHandler, hres, htr, Bool.and_self, if_true]

/-- C2 counterexample: with the default `resume=False`, an item whose detail
file already contains a `target_record_key` is POSTed again: one network
call instead of none, refuting the claim as stated. -/
theorem claim_C2_counterexample :
    pushDataHandler
      { resume := false, targetPresent := true,
        detail := [("source_record_key", .str "articles:1"),
                   ("target_record_key", .str "articles:7")],
        siblingFiles := [], serverResponse := fun _ => none } =
      .ok { returned := [("source_record_key", .str "articles:1"),
                         ("target_record_key", .str "articles:7")],
            fileAfter := [("source_record_key", .str "articles:1"),
                          ("target_record_key", .str "articles:7")],
            posts := 1 } ∧ (1 : Nat) ≠ 0 := ⟨rfl, by decide⟩

/-- C2 witness: the amended theorem applied to a concrete item, both with a
successful POST and with a resume skip. -/
theorem claim_C2_witness :
    (pushDataHandler
      { resume := false, targetPresent := true,
        detail := [("source_record_key", .str "articles:1")],
        siblingFiles := [],
        serverResponse := fun _ => some (.obj [("source_record_key", .str "articles:9")]) } =
      .ok { returned := [("source_record_key", .str "articles:1"),
                         ("target_record_key", .str "articles:9")],
            fileAfter := [("source_record_key", .str "articles:1"),
                          ("target_record_key", .str "articles:9")],
            posts := 1 } ∧
      getField [("source_record_key", Json.str "articles:1"),
                ("target_record_key", Json.str "articles:9")] "target_record_key" =
        some (.str "articles:9")) ∧
    pushDataHandler
      { resume := true, targetPresent := true,
        detail := [("source_record_key", .str "articles:1"),
                   ("target_record_key", .str "articles:7")],
        siblingFiles := [], serverResponse := fun _ => none } =
      .ok { returned := [("source_record_key", .str "articles:1"),
                         ("target_record_key", .str "articles:7")],
            fileAfter := [("source_record_key", .str "articles:1"),
                          ("target_record_key", .str "articles:7")],
            posts := 0 } := by
  constructor
  · exact (claim_C2 _).1 [("source_record_key", .str "articles:9")] (.str "articles:9")
      rfl rfl rfl rfl rfl
  · exact (claim_C2 _).2 rfl rfl

/-! ### Claim C3: foreign-key resolution

`_fetch_foreign_keys` (lines 957-994) and `_search_for_fk` (lines 996-1023).
The workspace is modelled as a directory tree rooted at
`<data_dir>/current/`; the resolver walks it exactly as the Python code
does: search the immediate entries of the current directory for a
subdirectory named after the related type, else consume the head of the
parent chain and descend into `<type>/<uuid>/`.
-/

/-- A directory tree: the on-disk workspace under `<data_dir>/current/`.
A file whose content is `null` also models an empty file, which
`__load_file_data` reads back as `None`. -/
inductive Entry where
  | dir (entries : List (String × Entry))
  | file (content : Json)

def lookupEntry : List (String × Entry) → String → Option Entry
  | [], _ => none
  | (n, e) :: rest, name => if n = name then some e else lookupEntry rest name

def isDir : Entry → Bool
  | .dir _ => true
  | .file _ => false

/-- Resolve a path, relative to the workspace root, against the tree. -/
def resolvePath : Entry → List String → Option Entry
  | e, [] => some e
  | .dir es, n :: rest =>
    match lookupEntry es n with
    | some e => resolvePath e rest
    | none => none
  | .file _, _ :: _ => none

/-- `inflector.English().singularize` restricted to the resource names the
structure tree uses: `ies` becomes `y`, a trailing `s` is dropped, anything
else (such as `response`) is unchanged. -/
def singular (s : String) : String :=
  match s.data.reverse with
  | 's' :: 'e' :: 'i' :: rest => String.mk (('y' :: rest).reverse)
  | 's' :: rest => String.mk rest.reverse
  | _ => s

/-- `_search_for_fk`.  `root` holds the entries of `<data_dir>/current/`;
`path` is the directory currently searched (the workspace root on the first
call, where Python passes `None`).  A `none` result models the uncaught
Python exceptions on the search path: iterating a missing directory raises
FileNotFoundError, an exhausted parent chain raises IndexError at
`list(parents_clone.items())[0]`, a parent record that is not a dict or has
no `uuid` fails the lookup, and a non-string uuid fails the path join. -/
def searchForFk (root : List (String × Entry)) (parents : List (String × Json))
    (fkResourceName fkUuid : String) (path : List String) : Option (List String) :=
    match resolvePath (.dir root) path with
    | some (.dir es) =>
      if es.any (fun p => isDir p.2 && p.1 == fkResourceName) then
        some (path ++ [fkResourceName, fkUuid, singular fkResourceName ++ ".json"])
      else
        match parents with
        | [] => none
        | (nextKey, nextResource) :: rest =>
          match nextResource with
          | .obj nl =>
            match getField nl "uuid" with
            | some (.str u) =>
              searchForFk root rest fkResourceName fkUuid (path ++ [nextKey, u])
            | _ => none
          | _ => none
    | _ => none
termination_by structural parents

/-- One-step unfolding of the resolver, usable for an arbitrary parent
chain. -/
theorem searchForFk_unfold (root : List (String × Entry)) (parents : List (String × Json))
    (fkResourceName fkUuid : String) (path : List String) :
    searchForFk root parents fkResourceName fkUuid path =
      match resolvePath (.dir root) path with
      | some (.dir es) =>
        if es.any (fun p => isDir p.2 && p.1 == fkResourceName) then
          some (path ++ [fkResourceName, fkUuid, singular fkResourceName ++ ".json"])
        else
          match parents with
          | [] => none
          | (nextKey, nextResource) :: rest =>
            match nextResource with
            | .obj nl =>
              match getField nl "uuid" with
              | some (.str u) =>
                searchForFk root rest fkResourceName fkUuid (path ++ [nextKey, u])
              | _ => none
            | _ => none
      | _ => none := by
  cases parents with
  | nil =>
    cases hr : resolvePath (.dir root) path with
    | none => simp [searchForFk, hr]
    | some e =>
      cases e with
      | dir es => simp [searchForFk, hr]
      | file c => simp [searchForFk, hr]
  | cons hd tl =>
    obtain ⟨nk, nr⟩ := hd
    cases hr : resolvePath (.dir root) path with
    | none => cases nr <;> simp [searchForFk, hr]
    | some e =>
      cases e with
      | file c => cases nr <;> simp [searchForFk, hr]
      | dir es =>
        cases nr with
        | obj nl =>
          cases hg : getField nl "uuid" with
          | none => simp [searchForFk, hr, hg]
          | some u => cases u <;> simp [searchForFk, hr, hg]
        | null => simp [searchForFk, hr]
        | bool b => simp [searchForFk, hr]
        | num n => simp [searchForFk, hr]
        | str s => simp [searchForFk, hr]
        | arr l2 => simp [searchForFk, hr]
        | file f => simp [searchForFk, hr]

/-- Resolution of one referenced object inside `_fetch_foreign_keys`:
`fk_dict["uuid"]` must exist (KeyError otherwise); a falsy uuid skips the
reference; the resolver result is existence-checked by the caller, and a
missing path leaves the reference untouched; an existing file is loaded
and, when its content is truthy, its `target_record_key` (possibly null)
is copied into the reference. -/
def resolveRef (root : List (String × Entry)) (parents : List (String × Json))
    (fkResourceName : String) : Json → Except PyErr Json
  | .obj rl =>
    match getField rl "uuid" with
    | none => .error .keyErr
    | some u =>
      if truthy u then
        match u with
        | .str us =>
          match searchForFk root parents fkResourceName us [] with
          | none => .error .indexErr
          | some p =>
            match resolvePath (.dir root) p with
            | some (.file c) =>
              if truthy c then
                match c with
                | .obj cl =>
                  .ok (.obj (setField rl "target_record_key"
                    ((getField cl "target_record_key").getD .null)))
                | _ => .error .attributeErr
              else .ok (.obj rl)
            | some (.dir _) => .error .typeErr
            | none => .ok (.obj rl)
        | _ => .error .typeErr
      else .ok (.obj rl)
  | _ => .error .typeErr

/-- A list-valued foreign-key field: each element resolved in order. -/
def resolveList (root : List (String × Entry)) (parents : List (String × Json))
    (fkResourceName : String) : List Json → Except PyErr (List Json)
  | [] => .ok []
  | r :: rest =>
    match resolveRef root parents fkResourceName r with
    | .error e => .error e
    | .ok r' =>
      match resolveList root parents fkResourceName rest with
      | .error e => .error e
      | .ok rest' => .ok (r' :: rest')

/-- `fk_list = data[fk_name] if isinstance(data[fk_name], list) else
[data[fk_name]]`, resolved element by element. -/
def resolveField (root : List (String × Entry)) (parents : List (String × Json))
    (fkResourceName : String) : Json → Except PyErr Json
  | .arr items =>
    match resolveList root parents fkResourceName items with
    | .error e => .error e
    | .ok items' => .ok (.arr items')
  | single => resolveRef root parents fkResourceName single

/-- The loop of `_fetch_foreign_keys` over the declared foreign keys:
falsy or absent fields are skipped, others are resolved in place. -/
def fetchForeignKeysFields (root : List (String × Entry)) (parents : List (String × Json)) :
    List (String × String) → List (String × Json) → Except PyErr (List (String × Json))
  | [], dl => .ok dl
  | (fkName, fkRes) :: rest, dl =>
    match getField dl fkName with
    | some v =>
      if truthy v then
        match resolveField root parents fkRes v with
        | .error e => .error e
        | .ok v' => fetchForeignKeysFields root parents rest (setField dl fkName v')
      else fetchForeignKeysFields root parents rest dl
    | none => fetchForeignKeysFields root parents rest dl

/-- `_fetch_foreign_keys`: with no declared foreign keys nothing happens and
nothing is written (`none`); otherwise the detail is transformed and
written back unconditionally (`some` content of `_replace_file_contents`). -/
def fetchForeignKeys (root : List (String × Entry)) (parents : List (String × Json))
    (fks : List (String × String)) (detail : Json) : Except PyErr (Option Json) :=
  if fks.isEmpty then .ok none
  else
    match detail with
    | .obj dl =>
      match fetchForeignKeysFields root parents fks dl with
      | .error e => .error e
      | .ok dl' => .ok (some (.obj dl'))
    | _ => .error .attributeErr

/-- C3: the resolver searches the immediate subdirectories of the workspace
`current/` directory for one named after the related type and returns
`<that>/<uuid>/<singular(type)>.json` (part 1); otherwise it consumes the
head of the parent chain, descends into `<type>/<ancestor uuid>/` and
recurses (part 2); when the resolved path exists with truthy content, the
related record's `target_record_key` is copied into the reference (part 3);
when the resolved path does not exist, the reference is left untouched and
no error is raised (part 4); and the preprocessor writes the transformed
detail back (part 5). -/
theorem claim_C3 :
    (∀ (root : List (String × Entry)) (parents : List (String × Json)) (r u : String),
      (root.any (fun p => isDir p.2 && p.1 == r)) = true →
      searchForFk root parents r u [] = some [r, u, singular r ++ ".json"]) ∧
    (∀ (root es : List (String × Entry)) (rest : List (String × Json))
       (nextKey r u us : String) (nl : List (String × Json)) (path : List String),
      resolvePath (.dir root) path = some (.dir es) →
      (es.any (fun p => isDir p.2 && p.1 == r)) = false →
      getField nl "uuid" = some (.str us) →
      searchForFk root ((nextKey, .obj nl) :: rest) r u path =
        searchForFk root rest r u (path ++ [nextKey, us])) ∧
    (∀ (root : List (String × Entry)) (parents : List (String × Json)) (r us : String)
       (rl cl : List (String × Json)) (p : List String),
      getField rl "uuid" = some (.str us) → us ≠ "" →
      searchForFk root parents r us [] = some p →
      resolvePath (.dir root) p = some (.file (.obj cl)) →
      truthy (.obj cl) = true →
      resolveRef root parents r (.obj rl) =
        .ok (.obj (setField rl "target_record_key"
          ((getField cl "target_record_key").getD .null)))) ∧
    (∀ (root : List (String × Entry)) (parents : List (String × Json)) (r us : String)
       (rl : List (String × Json)) (p : List String),
      getField rl "uuid" = some (.str us) → us ≠ "" →
      searchForFk root parents r us [] = some p →
      resolvePath (.dir root) p = none →
      resolveRef root parents r (.obj rl) = .ok (.obj rl)) ∧
    (∀ (root : List (String × Entry)) (parents : List (String × Json))
       (fkName fkRes : String) (dl : List (String × Json)) (v v' : Json),
      getField dl fkName = some v → truthy v = true →
      resolveField root parents fkRes v = .ok v' →
      fetchForeignKeys root parents [(fkName, fkRes)] (.obj dl) =
        .ok (some (.obj (setField dl fkName v')))) := by
  refine ⟨?_, ?_, ?_, ?_, ?_⟩
  · intro root parents r u hdir
    rw [searchForFk_unfold]
    dsimp only [resolvePath]
    rw [if_pos hdir]
    simp
  · intro root es rest nextKey r u us nl path hres hmiss huuid
    rw [searchForFk_unfold, hres]
    dsimp only
    rw [if_neg (by simp [hmiss])]
    rw [huuid]
  · intro root parents r us rl cl p huuid hus hsearch hres htr
    rw [resolveRef, huuid]
    dsimp only
    rw [if_pos (by simp [truthy, hus])]
    rw [hsearch]
    dsimp only
    rw [hres]
    dsimp only
    rw [if_pos htr]
  · intro root parents r us rl p huuid hus hsearch hres
    rw [resolveRef, huuid]
    dsimp only
    rw [if_pos (by simp [truthy, hus])]
    rw [hsearch]
    dsimp only
    rw [hres]
  · intro root parents fkName fkRes dl v v' hget htr hresv
    have hfields : fetchForeignKeysFields root parents [(fkName, fkRes)] dl =
        .ok (setField dl fkName v') := by
      rw [fetchForeignKeysFields, hget]
      try dsimp only
      rw [if_pos htr, hresv]
      try dsimp only
      rw [fetchForeignKeysFields]
    rw [fetchForeignKeys, if_neg (by simp)]
    try dsimp only
    rw [hfields]

/-- C3 witness: the five parts applied to concrete workspaces: a hit in the
immediate subdirectories, a descent step through a journal parent, a copy
from an existing detail file, a miss that leaves the reference untouched,
and the write-back of a transformed detail. -/
theorem claim_C3_witness :
    searchForFk [("sections", .dir [])] [] "sections" "U1" [] =
      some ["sections", "U1", singular "sections" ++ ".json"] ∧
    searchForFk [("journals", .dir [("J1", .dir [("sections", .dir [])])])]
        [("journals", .obj [("uuid", .str "J1")])] "sections" "U1" [] =
      searchForFk [("journals", .dir [("J1", .dir [("sections", .dir [])])])]
        [] "sections" "U1" ["journals", "J1"] ∧
    resolveRef
        [("sections", .dir [("U1", .dir [("section.json",
          .file (.obj [("target_record_key", .str "sections:42")]))])])]
        [] "sections" (.obj [("uuid", .str "U1"), ("source_record_key", .str "sections:3")]) =
      .ok (.obj (setField [("uuid", .str "U1"), ("source_record_key", .str "sections:3")]
        "target_record_key"
        ((getField [("target_record_key", Json.str "sections:42")] "target_record_key").getD
          .null))) ∧
    resolveRef [("sections", .dir [])] [] "sections" (.obj [("uuid", .str "U9")]) =
      .ok (.obj [("uuid", .str "U9")]) ∧
    fetchForeignKeys
        [("sections", .dir [("U1", .dir [("section.json",
          .file (.obj [("target_record_key", .str "sections:42")]))])])]
        [] [("section", "sections")]
        (.obj [("section", .obj [("uuid", .str "U1")])]) =
      .ok (some (.obj (setField [("section", Json.obj [("uuid", Json.str "U1")])] "section"
        (.obj [("uuid", .str "U1"), ("target_record_key", .str "sections:42")])))) := by
  refine ⟨?_, ?_, ?_, ?_, ?_⟩
  · exact claim_C3.1 [("sections", .dir [])] [] "sections" "U1" rfl
  · exact claim_C3.2.1 [("journals", .dir [("J1", .dir [("sections", .dir [])])])]
      [("journals", .dir [("J1", .dir [("sections", .dir [])])])] [] "journals" "sections"
      "U1" "J1" [("uuid", .str "J1")] [] rfl rfl rfl
  · exact claim_C3.2.2.1
      [("sections", .dir [("U1", .dir [("section.json",
        .file (.obj [("target_record_key", .str "sections:42")]))])])]
      [] "sections" "U1"
      [("uuid", .str "U1"), ("source_record_key", .str "sections:3")]
      [("target_record_key", .str "sections:42")]
      ["sections", "U1", singular "sections" ++ ".json"]
      rfl (by decide) rfl rfl rfl
  · exact claim_C3.2.2.2.1 [("sections", .dir [])] [] "sections" "U9"
      [("uuid", .str "U9")] ["sections", "U9", singular "sections" ++ ".json"]
      rfl (by decide) rfl rfl
  · exact claim_C3.2.2.2.2
      [("sections", .dir [("U1", .dir [("section.json",
        .file (.obj [("target_record_key", .str "sections:42")]))])])]
      [] "section" "sections"
      [("section", .obj [("uuid", .str "U1")])]
      (.obj [("uuid", .str "U1")])
      (.obj [("uuid", .str "U1"), ("target_record_key", .str "sections:42")])
      rfl rfl rfl

/-! ### Claim C5: empty or absent indexes during the walkers

`_fetch` (lines 688-755) and `_push` (lines 885-955).  Both walkers iterate
a structure dict; on an index that is empty (or, for `_fetch`, blank) they
execute `return`, which exits the whole invocation: the node's subtree AND
any later resource types of the same structure dict are abandoned.  Because
recursive calls pass one child at a time (`self._fetch({child_name: ...})`),
siblings reached through separate invocations do continue.  An absent index
file raises FileNotFoundError out of the walker (there is no try around the
load), and `_push` on a blank index raises TypeError at `len(None)`.

The model records a trace of handler invocations (the path of each resource
instance handled).  Handler bodies, pre/postprocessors and progress
reporting are elided: their errors are answered by the observer with
continue (the abort answer raises and is outside this claim) and they do
not change the traversal.  In `_fetch` the `response` variable is reset at
the top of each stub iteration; in `_push` it is initialized once before
the loop, so a raising handler leaves the previous stub's response visible
to the children recursion, which the push model threads explicitly.
-/

/-- Per-stage node configuration as the walkers read it: `False` disables
the stage and its subtree; anything else behaves like a config dict, with
an optional `singleton` marker (fetch only). -/
inductive StageCfg where
  | disabled
  | default (singleton : Bool)

/-- One node of `STRUCTURE`, reduced to what drives the traversal. -/
structure SNode where
  fetchCfg : StageCfg
  pushCfg : StageCfg
  children : List (String × SNode)

/-- `resource_dict["uuid"]` for a parent record or stub used in a path. -/
def uuidOfRecord : Json → Except PyErr String
  | .obj l =>
    match getField l "uuid" with
    | some (.str u) => .ok u
    | some _ => .error .typeErr
    | none => .error .keyErr
  | _ => .error .typeErr

/-- `_parent_path_segments(parents, "uuid")`: the resource name of
each ancestor followed by its uuid when the record is truthy. -/
def parentPathSegments : List (String × Json) → Except PyErr (List String)
  | [] => .ok []
  | (name, rd) :: rest =>
    if truthy rd then
      match uuidOfRecord rd with
      | .error e => .error e
      | .ok u =>
        match parentPathSegments rest with
        | .error e => .error e
        | .ok segs => .ok (name :: u :: segs)
    else
      match parentPathSegments rest with
      | .error e => .error e
      | .ok segs => .ok (name :: segs)

/-- `_build_path`, relative to `<data_dir>/current/`. -/
def buildPath (parents : List (String × Json)) (resourceName : String)
    (stub : Option Json) : Except PyErr (List String) :=
  match parentPathSegments parents with
  | .error e => .error e
  | .ok segs =>
    match stub with
    | some st =>
      if truthy st then
        match uuidOfRecord st with
        | .error e => .error e
        | .ok u => .ok (segs ++ [resourceName, u])
      else .ok (segs ++ [resourceName])
    | none => .ok (segs ++ [resourceName])

/-- `__load_file_data` on a workspace path: FileNotFoundError when missing,
IsADirectoryError (folded into the type error) on a directory; a blank file
parses to null. -/
def loadFileData (fs : List (String × Entry)) (path : List String) : Except PyErr Json :=
  match resolvePath (.dir fs) path with
  | some (.file c) => .ok c
  | some (.dir _) => .error .typeErr
  | none => .error .fileNotFound

/-- What a stage handler did for one item, as the walker observes it. -/
inductive HandlerOutcome where
  | raised
  | returned (r : Json)

/-- The environment of one walker run: the workspace tree and the handler
behavior per resource path (covering network answers and resume reuse). -/
structure WalkCtx where
  fs : List (String × Entry)
  fetcher : List String → String → Option Json
  pusher : List String → String → HandlerOutcome

theorem SNode.sizeOf_children_lt (node : SNode) : sizeOf node.children < sizeOf node := by
  cases node with
  | mk f p cs =>
    simp [SNode.children]

mutual

/-- The loop of `_fetch` over a structure dict. -/
def fetchList (ctx : WalkCtx) : List (String × SNode) → List (String × Json) →
    Except PyErr (List (List String))
  | [], _ => .ok []
  | (name, node) :: rest, parents =>
    match node.fetchCfg with
    | .disabled => fetchList ctx rest parents
    | .default single =>
      match fetchNode ctx name node single parents with
      | .error e => .error e
      | .ok (t, earlyReturn) =>
        if earlyReturn then .ok t
        else
          match fetchList ctx rest parents with
          | .error e => .error e
          | .ok t2 => .ok (t ++ t2)
termination_by s _ => (sizeOf s, 3, 0)

/-- One enabled node at FETCH.  The Bool is true when the node executed
`return` (empty or blank index), which also abandons the remaining nodes of
the same invocation. -/
def fetchNode (ctx : WalkCtx) (name : String) (node : SNode) (single : Bool)
    (parents : List (String × Json)) : Except PyErr (List (List String) × Bool) :=
  if single then
    match buildPath parents name none with
    | .error e => .error e
    | .ok path => .ok ([path], false)
  else
    match buildPath parents name none with
    | .error e => .error e
    | .ok path =>
      match loadFileData ctx.fs (path ++ ["index.json"]) with
      | .error e => .error e
      | .ok stubsJson =>
        if !truthy stubsJson then .ok ([], true)
        else
          match stubsJson with
          | .arr stubs =>
            match fetchStubs ctx name node parents stubs with
            | .error e => .error e
            | .ok t => .ok (t, false)
          | _ => .error .typeErr
termination_by (sizeOf node, 2, 0)

/-- The per-stub loop of `_fetch`: path building happens before the try
block, so its errors are fatal; the handler itself is guarded and a raise
is answered with continue, leaving `response` as the `None` it was reset to
at the top of the iteration. -/
def fetchStubs (ctx : WalkCtx) (name : String) (node : SNode)
    (parents : List (String × Json)) : List Json → Except PyErr (List (List String))
  | [] => .ok []
  | stub :: more =>
    match buildPath parents name (some stub) with
    | .error e => .error e
    | .ok path =>
      let childTrace : Except PyErr (List (List String)) :=
        match ctx.fetcher path name with
        | some r =>
          if truthy r && !node.children.isEmpty then
            have _hlt : sizeOf node.children < sizeOf node := SNode.sizeOf_children_lt node
            fetchChildren ctx node.children name r parents
          else .ok []
        | none => .ok []
      match childTrace with
      | .error e => .error e
      | .ok tc =>
        match fetchStubs ctx name node parents more with
        | .error e => .error e
        | .ok tm => .ok (path :: (tc ++ tm))
termination_by stubs => (sizeOf node, 1, stubs.length)

/-- The children recursion of `_fetch`: each child is passed to a fresh
invocation as a one-entry structure dict, so a child that executes
`return` does not affect its later siblings (a singleton invocation has
nothing after the returning node). -/
def fetchChildren (ctx : WalkCtx) : List (String × SNode) → String → Json →
    List (String × Json) → Except PyErr (List (List String))
  | [], _, _, _ => .ok []
  | (cname, cnode) :: crest, name, resp, parents =>
    let childResult : Except PyErr (List (List String)) :=
      match cnode.fetchCfg with
      | .disabled => .ok []
      | .default csingle =>
        match fetchNode ctx cname cnode csingle (setField parents name resp) with
        | .error e => .error e
        | .ok (t, _) => .ok t
    match childResult with
    | .error e => .error e
    | .ok t1 =>
      match fetchChildren ctx crest name resp parents with
      | .error e => .error e
      | .ok t2 => .ok (t1 ++ t2)
termination_by cs _ _ _ => (sizeOf cs, 0, 0)

end

mutual

/-- The loop of `_push` over a structure dict. -/
def pushList (ctx : WalkCtx) : List (String × SNode) → List (String × Json) →
    Except PyErr (List (List String))
  | [], _ => .ok []
  | (name, node) :: rest, parents =>
    match node.pushCfg with
    | .disabled => pushList ctx rest parents
    | .default _ =>
      match pushNode ctx name node parents with
      | .error e => .error e
      | .ok (t, earlyReturn) =>
        if earlyReturn then .ok t
        else
          match pushList ctx rest parents with
          | .error e => .error e
          | .ok t2 => .ok (t ++ t2)
termination_by s _ => (sizeOf s, 3, 0)

/-- One enabled node at PUSH: the index is loaded with no try around it, and
`if not len(resource_index): return`; `len(None)` on a blank index raises
TypeError.  Real indexes are JSON arrays; other nonempty index contents are
collapsed to the first error they would eventually raise. -/
def pushNode (ctx : WalkCtx) (name : String) (node : SNode)
    (parents : List (String × Json)) : Except PyErr (List (List String) × Bool) :=
  match buildPath parents name none with
  | .error e => .error e
  | .ok path =>
    match loadFileData ctx.fs (path ++ ["index.json"]) with
    | .error e => .error e
    | .ok idx =>
      match idx with
      | .arr stubs =>
        if stubs.isEmpty then .ok ([], true)
        else
          match pushStubs ctx name node parents stubs none with
          | .error e => .error e
          | .ok t => .ok (t, false)
      | .null => .error .typeErr
      | .str s => if s = "" then .ok ([], true) else .error .typeErr
      | .obj ol => if ol.isEmpty then .ok ([], true) else .error .typeErr
      | _ => .error .typeErr
termination_by (sizeOf node, 2, 0)

/-- The per-stub loop of `_push`: the whole body (path building included) is
inside the try, and `response` is initialized once before the loop, so a
raising iteration leaves the previous response visible to the children
recursion. -/
def pushStubs (ctx : WalkCtx) (name : String) (node : SNode)
    (parents : List (String × Json)) : List Json → Option Json →
    Except PyErr (List (List String))
  | [], _ => .ok []
  | stub :: more, prev =>
    let step : Option Json × List (List String) :=
      match buildPath parents name (some stub) with
      | .error _ => (prev, [])
      | .ok path =>
        match ctx.pusher path name with
        | .raised => (prev, [path])
        | .returned r => (some r, [path])
    let childTrace : Except PyErr (List (List String)) :=
      match step.1 with
      | some r =>
        if truthy r && !node.children.isEmpty then
          have _hlt : sizeOf node.children < sizeOf node := SNode.sizeOf_children_lt node
          pushChildren ctx node.children name r parents
        else .ok []
      | none => .ok []
    match childTrace with
    | .error e => .error e
    | .ok tc =>
      match pushStubs ctx name node parents more step.1 with
      | .error e => .error e
      | .ok tm => .ok (step.2 ++ tc ++ tm)
termination_by stubs _ => (sizeOf node, 1, stubs.length)

/-- The children recursion of `_push`, one child per fresh invocation. -/
def pushChildren (ctx : WalkCtx) : List (String × SNode) → String → Json →
    List (String × Json) → Except PyErr (List (List String))
  | [], _, _, _ => .ok []
  | (cname, cnode) :: crest, name, resp, parents =>
    let childResult : Except PyErr (List (List String)) :=
      match cnode.pushCfg with
      | .disabled => .ok []
      | .default _ =>
        match pushNode ctx cname cnode (setField parents name resp) with
        | .error e => .error e
        | .ok (t, _) => .ok t
    match childResult with
    | .error e => .error e
    | .ok t1 =>
      match pushChildren ctx crest name resp parents with
      | .error e => .error e
      | .ok t2 => .ok (t1 ++ t2)
termination_by cs _ _ _ => (sizeOf cs, 0, 0)

end

/-- C5 (amended): at FETCH, a non-singleton node whose index parses to a
falsy value (empty array, null from a blank file) makes the walker execute
`return`: the node's subtree AND the remaining resource types of the same
invocation are abandoned, with no error (part 1).  Children are walked one
per fresh invocation, so a child that returns early does not affect its
later siblings (part 2).  At PUSH an index parsing to an empty array
behaves the same way (part 3).  An absent index file at FETCH raises
FileNotFoundError out of the stage (part 4), and a blank index file at
PUSH raises TypeError at `len(None)` (part 5). -/
theorem claim_C5 (ctx : WalkCtx) :
    (∀ name node rest parents path c,
      node.fetchCfg = .default false →
      buildPath parents name none = .ok path →
      loadFileData ctx.fs (path ++ ["index.json"]) = .ok c →
      truthy c = false →
      fetchList ctx ((name, node) :: rest) parents = .ok []) ∧
    (∀ cname cnode crest name resp parents t1 t2,
      fetchList ctx [(cname, cnode)] (setField parents name resp) = .ok t1 →
      fetchChildren ctx crest name resp parents = .ok t2 →
      fetchChildren ctx ((cname, cnode) :: crest) name resp parents = .ok (t1 ++ t2)) ∧
    (∀ b name node rest parents path,
      node.pushCfg = .default b →
      buildPath parents name none = .ok path →
      loadFileData ctx.fs (path ++ ["index.json"]) = .ok (.arr []) →
      pushList ctx ((name, node) :: rest) parents = .ok []) ∧
    (∀ name node rest parents path,
      node.fetchCfg = .default false →
      buildPath parents name none = .ok path →
      loadFileData ctx.fs (path ++ ["index.json"]) = .error .fileNotFound →
      fetchList ctx ((name, node) :: rest) parents = .error .fileNotFound) ∧
    (∀ b name node rest parents path,
      node.pushCfg = .default b →
      buildPath parents name none = .ok path →
      loadFileData ctx.fs (path ++ ["index.json"]) = .ok .null →
      pushList ctx ((name, node) :: rest) parents = .error .typeErr) := by
  refine ⟨?_, ?_, ?_, ?_, ?_⟩
  · intro name node rest parents path c hcfg hbuild hload hc
    have hnode : fetchNode ctx name node false parents = .ok ([], true) := by
      rw [fetchNode]
      rw [if_neg (by simp)]
      rw [hbuild]
      try dsimp only
      rw [hload]
      try dsimp only
      rw [if_pos (by simp [hc])]
    simp [fetchList, hcfg, hnode]
  · intro cname cnode crest name resp parents t1 t2 h1 h2
    rw [fetchChildren]
    cases hcfg : cnode.fetchCfg with
    | disabled =>
      simp only [hcfg]
      simp [fetchList, hcfg] at h1
      subst h1
      simp [h2]
    | default csingle =>
      cases hfn : fetchNode ctx cname cnode csingle (setField parents name resp) with
      | error e => simp [fetchList, hcfg, hfn] at h1
      | ok tr =>
        obtain ⟨t, flag⟩ := tr
        simp only [hcfg]
        rw [hfn]
        try dsimp only
        have ht1 : t1 = t := by
          cases flag with
          | true => simpa [fetchList, hcfg, hfn] using h1.symm
          | false =>
            have := h1
            simp [fetchList, hcfg, hfn] at this
            exact this.symm
        subst ht1
        rw [h2]
  · intro b name node rest parents path hcfg hbuild hload
    have hnode : pushNode ctx name node parents = .ok ([], true) := by
      rw [pushNode]
      rw [hbuild]
      try dsimp only
      rw [hload]
      try dsimp only
      simp
    simp [pushList, hcfg, hnode]
  · intro name node rest parents path hcfg hbuild hload
    have hnode : fetchNode ctx name node false parents = .error .fileNotFound := by
      rw [fetchNode]
      rw [if_neg (by simp)]
      rw [hbuild]
      try dsimp only
      rw [hload]
    simp [fetchList, hcfg, hnode]
  · intro b name node rest parents path hcfg hbuild hload
    have hnode : pushNode ctx name node parents = .error .typeErr := by
      rw [pushNode]
      rw [hbuild]
      try dsimp only
      rw [hload]
    simp [pushList, hcfg, hnode]

/-- A resource node with default handling and no children. -/
def leafNode : SNode := ⟨.default false, .default false, []⟩

/-- The workspace used for the C5 scenarios: an empty users index, a
journals index with one stub and child directories for that journal, a
blank index and one absent directory. -/
def demoFs : List (String × Entry) :=
  [("users", .dir [("index.json", .file (.arr []))]),
   ("journals", .dir
     [("index.json", .file (.arr [.obj [("uuid", .str "J1")]])),
      ("J1", .dir
        [("roles", .dir [("index.json", .file (.arr []))]),
         ("sections", .dir [("index.json", .file (.arr [.obj [("uuid", .str "S1")]]))])])]),
   ("blank", .dir [("index.json", .file .null)])]

/-- A walker environment over `demoFs` whose fetch handler answers every
detail request with the journal record. -/
def demoCtx : WalkCtx :=
  { fs := demoFs,
    fetcher := fun _ _ => some (.obj [("uuid", .str "J1")]),
    pusher := fun _ _ => .raised }

/-- C5 counterexample: the claim as stated promises that an empty index only
abandons that node's subtree and that the remaining sibling resource types
at the same level are still processed.  At the top level of FETCH, `users`
(whose fetch stage is enabled by default) hits its empty index and the
`return` also skips `journals`, the sibling declared after it, although
`journals` alone has work to do. -/
theorem claim_C5_counterexample :
    fetchList demoCtx [("users", leafNode), ("journals", leafNode)] [] = .ok [] ∧
    fetchList demoCtx [("journals", leafNode)] [] = .ok [["journals", "J1"]] := by
  constructor
  · simp [fetchList, fetchNode, fetchStubs, fetchChildren, demoCtx, demoFs, leafNode,
      buildPath, parentPathSegments, loadFileData, resolvePath, lookupEntry, truthy,
      getField, uuidOfRecord]
  · simp [fetchList, fetchNode, fetchStubs, fetchChildren, demoCtx, demoFs, leafNode,
      buildPath, parentPathSegments, loadFileData, resolvePath, lookupEntry, truthy,
      getField, uuidOfRecord]

/-- C5 witness: the amended theorem applied to the demo workspace: the
empty-index return at FETCH and at PUSH, the sibling survival across child
invocations, the fatal absent index at FETCH and the fatal blank index at
PUSH. -/
theorem claim_C5_witness :
    fetchList demoCtx [("users", leafNode), ("journals", leafNode)] [] = .ok [] ∧
    fetchChildren demoCtx [("roles", leafNode), ("sections", leafNode)] "journals"
      (.obj [("uuid", .str "J1")]) [] = .ok ([] ++ [["journals", "J1", "sections", "S1"]]) ∧
    pushList demoCtx [("users", leafNode)] [] = .ok [] ∧
    fetchList demoCtx [("absent", leafNode)] [] = .error .fileNotFound ∧
    pushList demoCtx [("blank", leafNode)] [] = .error .typeErr := by
  refine ⟨?_, ?_, ?_, ?_, ?_⟩
  · exact (claim_C5 demoCtx).1 "users" leafNode [("journals", leafNode)] [] ["users"]
      (.arr []) rfl rfl rfl rfl
  · refine (claim_C5 demoCtx).2.1 "roles" leafNode [("sections", leafNode)] "journals"
      (.obj [("uuid", .str "J1")]) [] [] [["journals", "J1", "sections", "S1"]] ?_ ?_
    · simp [fetchList, fetchNode, fetchStubs, fetchChildren, demoCtx, demoFs, leafNode,
        buildPath, parentPathSegments, loadFileData, resolvePath, lookupEntry, truthy,
        getField, uuidOfRecord, setField, hasKey]
    · simp [fetchList, fetchNode, fetchStubs, fetchChildren, demoCtx, demoFs, leafNode,
        buildPath, parentPathSegments, loadFileData, resolvePath, lookupEntry, truthy,
        getField, uuidOfRecord, setField, hasKey]
  · exact (claim_C5 demoCtx).2.2.1 false "users" leafNode [] [] ["users"] rfl rfl rfl
  · exact (claim_C5 demoCtx).2.2.2.1 "absent" leafNode [] [] ["absent"] rfl rfl rfl
  · exact (claim_C5 demoCtx).2.2.2.2 false "blank" leafNode [] [] ["blank"] rfl rfl rfl

/-! ### Claims C6 and C9: stage gating and the metadata bracket

`fetch_indexes`, `fetch_data` and `push_data` (lines 306-369) assert their
gate (`can_index`, `can_fetch`, `can_push`, lines 293-300), write the
started timestamp through `write_to_meta_file`, run the walker, and write
the finished timestamp.  `push_data` builds its finished key with
`f"{self.STAGE_PUSHING}finished"` - no underscore - while
`is_push_finished` reads `push_finished`.  The walker body is abstracted as
an `Except` value; it does not touch the metadata file (`__set_cursor` has
no call site).  An error result carries the metadata as it stood when the
exception escaped.
-/

/-- `write_to_meta_file`: re-read the file, overlay the new keys
(`{**existing_content, **data}`) and replace the contents. -/
def writeToMetaFile (meta delta : List (String × Json)) : List (String × Json) :=
  mergeDicts meta delta

def STAGE_PUSHING : String := "push"

/-- `bool(self.metadata.get("index_finished"))`. -/
def isIndexFinished (meta : List (String × Json)) : Bool :=
  truthy ((getField meta "index_finished").getD .null)

def isFetchFinished (meta : List (String × Json)) : Bool :=
  truthy ((getField meta "fetch_finished").getD .null)

def isPushFinished (meta : List (String × Json)) : Bool :=
  truthy ((getField meta "push_finished").getD .null)

def canIndex (_meta : List (String × Json)) : Bool := true

def canFetch (meta : List (String × Json)) : Bool := isIndexFinished meta

def canPush (meta : List (String × Json)) : Bool := isFetchFinished meta

/-- `fetch_indexes` as it acts on the metadata file. -/
def fetchIndexesStage (meta : List (String × Json)) (t1 t2 : String)
    (body : Except PyErr Unit) :
    Except (PyErr × List (String × Json)) (List (String × Json)) :=
  if !canIndex meta then .error (.assertionErr, meta)
  else
    let meta1 := writeToMetaFile meta [("index_started", .str t1)]
    match body with
    | .error e => .error (e, meta1)
    | .ok _ => .ok (writeToMetaFile meta1 [("index_finished", .str t2)])

/-- `fetch_data` as it acts on the metadata file. -/
def fetchDataStage (meta : List (String × Json)) (t1 t2 : String)
    (body : Except PyErr Unit) :
    Except (PyErr × List (String × Json)) (List (String × Json)) :=
  if !canFetch meta then .error (.assertionErr, meta)
  else
    let meta1 := writeToMetaFile meta [("fetch_started", .str t1)]
    match body with
    | .error e => .error (e, meta1)
    | .ok _ => .ok (writeToMetaFile meta1 [("fetch_finished", .str t2)])

/-- `push_data` as it acts on the metadata file, with the finished key built
as `STAGE_PUSHING ++ "finished"` exactly like the source f-string. -/
def pushDataStage (meta : List (String × Json)) (t1 t2 : String)
    (body : Except PyErr Unit) :
    Except (PyErr × List (String × Json)) (List (String × Json)) :=
  if !canPush meta then .error (.assertionErr, meta)
  else
    let meta1 := writeToMetaFile meta [(STAGE_PUSHING ++ "_started", .str t1)]
    match body with
    | .error e => .error (e, meta1)
    | .ok _ => .ok (writeToMetaFile meta1 [(STAGE_PUSHING ++ "finished", .str t2)])

/-- C6: the claim is right and the code has a slip: after a successful
`push_data` the metadata carries `push_started` and `pushfinished` (no
underscore), not the schema key `push_finished`; the code contradicts its
own `is_push_finished`, which keeps answering false, and `current_stage`,
which keeps reporting the push stage as unfinished. -/
theorem claim_C6 :
    pushDataStage [("fetch_finished", .str "TF")] "T1" "T2" (.ok ()) =
      .ok [("fetch_finished", .str "TF"), ("push_started", .str "T1"),
           ("pushfinished", .str "T2")] ∧
    getField [("fetch_finished", Json.str "TF"), ("push_started", Json.str "T1"),
      ("pushfinished", Json.str "T2")] "push_finished" = none ∧
    getField [("fetch_finished", Json.str "TF"), ("push_started", Json.str "T1"),
      ("pushfinished", Json.str "T2")] "pushfinished" = some (.str "T2") ∧
    isPushFinished [("fetch_finished", Json.str "TF"), ("push_started", Json.str "T1"),
      ("pushfinished", Json.str "T2")] = false := ⟨rfl, rfl, rfl, rfl⟩

/-- C9: INDEX may always run; FETCH runs only when `index_finished` is set
and PUSH only when `fetch_finished` is set; a stage invoked with its
precondition unmet fails at the entry assertion before any work or metadata
write (the error is independent of the stage body and carries the metadata
unchanged); with the precondition met, the stage brackets its body with the
started and finished writes. -/
theorem claim_C9 (meta : List (String × Json)) (t1 t2 : String) (body : Except PyErr Unit) :
    canIndex meta = true ∧
    (fetchIndexesStage meta t1 t2 body =
      match body with
      | .error e => .error (e, writeToMetaFile meta [("index_started", .str t1)])
      | .ok _ => .ok (writeToMetaFile (writeToMetaFile meta [("index_started", .str t1)])
          [("index_finished", .str t2)])) ∧
    (isIndexFinished meta = false →
      fetchDataStage meta t1 t2 body = .error (.assertionErr, meta)) ∧
    (isFetchFinished meta = false →
      pushDataStage meta t1 t2 body = .error (.assertionErr, meta)) ∧
    (isIndexFinished meta = true →
      fetchDataStage meta t1 t2 (.ok ()) =
        .ok (writeToMetaFile (writeToMetaFile meta [("fetch_started", .str t1)])
          [("fetch_finished", .str t2)])) ∧
    (isFetchFinished meta = true →
      pushDataStage meta t1 t2 (.ok ()) =
        .ok (writeToMetaFile (writeToMetaFile meta [("push_started", .str t1)])
          [("pushfinished", .str t2)])) := by
  refine ⟨rfl, ?_, ?_, ?_, ?_, ?_⟩
  · simp only [fetchIndexesStage, canIndex, Bool.not_true, Bool.false_eq_true, if_false]
  · intro hidx
    simp [fetchDataStage, canFetch, hidx]
  · intro hfetch
    simp [pushDataStage, canPush, hfetch]
  · intro hidx
    simp [fetchDataStage, canFetch, hidx]
  · intro hfetch
    simp [pushDataStage, canPush, hfetch, STAGE_PUSHING]

/-- C9 witness: the gates applied to concrete metadata states. -/
theorem claim_C9_witness :
    fetchDataStage [] "T1" "T2" (.ok ()) = .error (.assertionErr, []) ∧
    pushDataStage [("index_finished", .str "TI")] "T1" "T2" (.ok ()) =
      .error (.assertionErr, [("index_finished", .str "TI")]) ∧
    fetchDataStage [("index_finished", .str "TI")] "T1" "T2" (.ok ()) =
      .ok (writeToMetaFile (writeToMetaFile [("index_finished", .str "TI")]
        [("fetch_started", .str "T1")]) [("fetch_finished", .str "T2")]) := by
  refine ⟨?_, ?_, ?_⟩
  · exact (claim_C9 [] "T1" "T2" (.ok ())).2.2.1 rfl
  · exact (claim_C9 [("index_finished", .str "TI")] "T1" "T2" (.ok ())).2.2.2.1 rfl
  · exact (claim_C9 [("index_finished", .str "TI")] "T1" "T2" (.ok ())).2.2.2.2.1 rfl

/-! ### Claim C7: linked-file downloads (`_fetch_linked_files`, lines 824-836)

For each field named `*_file` whose value is a dict, when not skipped by
resume, the handler GETs `data[key]["url"]` as a binary with
`filename=key`, so the download is saved in the detail's directory under
the FIELD NAME, and then sets `data[key + "_filename"]` to
`data.get("upload_name") or data.get("name")` - values of the detail
itself, not the URL basename.  The mutation happens on the in-memory dict
after the detail file was already written by the fetch handler; neither
`_fetch_linked_files` nor `_default_fetch_postprocessor` writes the detail
back to disk, so the model returns the mutated dict and the download list
(url, saved filename), and performs no other writes.
-/

/-- Python `str.endswith`, computably on the character lists. -/
def strEndsWith (s suffix : String) : Bool := suffix.data.isSuffixOf s.data

/-- `_fetch_linked_files` on one detail dict: the resulting in-memory dict
and the binary downloads as (url value, filename saved under). -/
def fetchLinkedFiles (resume : Bool) (fileExists : String → Bool)
    (data : List (String × Json)) : List (String × Json) × List (Json × String) :=
  let fileKeys := (data.map (fun p => p.1)).filter (fun k => strEndsWith k "_file")
  fileKeys.foldl
    (fun acc key =>
      match getField acc.1 key with
      | some (.obj ol) =>
        if resume && fileExists key then acc
        else
          let url := (getField ol "url").getD .null
          if truthy url then
            let un := (getField acc.1 "upload_name").getD .null
            let fname := if truthy un then un else (getField acc.1 "name").getD .null
            (setField acc.1 (key ++ "_filename") fname, acc.2 ++ [(url, key)])
          else acc
      | _ => acc)
    (data, [])

/-- C7 (amended): for a fetched detail whose single `*_file` field holds an
object with a truthy url (and not skipped by resume), the default FETCH
postprocessor downloads that url as a binary saved in the detail's
directory under the field's own name, and records under
`<field>_filename` - in the in-memory detail only - the detail's
`upload_name`, else its `name` (null when neither exists); it does not
derive the name from the URL and does not re-write the detail file. -/
theorem claim_C7 (resume : Bool) (fileExists : String → Bool)
    (data : List (String × Json)) (key : String) (ol : List (String × Json)) (url : Json) :
    ((data.map (fun p => p.1)).filter (fun k => strEndsWith k "_file")) = [key] →
    getField data key = some (.obj ol) →
    (resume && fileExists key) = false →
    getField ol "url" = some url →
    truthy url = true →
    fetchLinkedFiles resume fileExists data =
      (setField data (key ++ "_filename")
        (if truthy ((getField data "upload_name").getD .null) then
          (getField data "upload_name").getD .null
         else (getField data "name").getD .null),
       [(url, key)]) := by
  intro hkeys hget hskip hurl htr
  simp only [fetchLinkedFiles, hkeys, List.foldl_cons, List.foldl_nil]
  rw [hget]
  try dsimp only
  rw [hskip]
  try dsimp only
  rw [hurl]
  simp only [Option.getD_some, Bool.false_eq_true, if_false, htr, if_true,
    List.nil_append]

/-- C7 counterexample: the detail of the specification's own example,
`"cover_file": {"url": "https://host/x.png"}`.  The binary is saved as
`cover_file` (the field name), not `x.png`, and `cover_file_filename`
becomes null (there is no `upload_name` or `name`), not `"x.png"`; and the
mutation only exists in memory, the returned download list being the only
write performed. -/
theorem claim_C7_counterexample :
    fetchLinkedFiles false (fun _ => false)
      [("cover_file", .obj [("url", .str "https://host/x.png")])] =
      ([("cover_file", .obj [("url", .str "https://host/x.png")]),
        ("cover_file_filename", .null)],
       [(.str "https://host/x.png", "cover_file")]) ∧
    Json.null ≠ Json.str "x.png" ∧
    "cover_file" ≠ "x.png" := by
  refine ⟨rfl, by simp, by simp⟩

/-- C7 witness: the amended theorem applied to a detail carrying an
`upload_name`. -/
theorem claim_C7_witness :
    fetchLinkedFiles false (fun _ => false)
      [("upload_name", .str "manuscript.pdf"),
       ("cover_file", .obj [("url", .str "https://host/x.png")])] =
      (setField [("upload_name", .str "manuscript.pdf"),
                 ("cover_file", .obj [("url", .str "https://host/x.png")])]
        "cover_file_filename"
        (if truthy ((getField [("upload_name", Json.str "manuscript.pdf"),
            ("cover_file", Json.obj [("url", Json.str "https://host/x.png")])]
            "upload_name").getD .null) then
          (getField [("upload_name", Json.str "manuscript.pdf"),
            ("cover_file", Json.obj [("url", Json.str "https://host/x.png")])]
            "upload_name").getD .null
         else (getField [("upload_name", Json.str "manuscript.pdf"),
            ("cover_file", Json.obj [("url", Json.str "https://host/x.png")])]
            "name").getD .null),
       [(.str "https://host/x.png", "cover_file")]) :=
  claim_C7 false (fun _ => false)
    [("upload_name", .str "manuscript.pdf"),
     ("cover_file", .obj [("url", .str "https://host/x.png")])]
    "cover_file" [("url", .str "https://host/x.png")] (.str "https://host/x.png")
    rfl rfl rfl rfl rfl

/-! ### Claim C8: transitively discovered users (`_ensure_user_fks`, lines 838-869)

For each declared foreign key pointing at `users` whose reference is a dict
and whose `users/<uuid>/` directory does not exist, the handler creates the
directory, touches `user.json`, GETs the user and writes the detail file,
then loads `<root>/users/index.json`, appends the new entry, and re-writes
the index.  The detail write therefore precedes the index append, the
opposite of the claimed order.  The model records the file-system events of
one run in order; the GET is taken to succeed (a failing GET raises before
the index is touched, which changes nothing about the order). -/

/-- The file-system events of `_ensure_user_fks`, in program order. -/
inductive UserEvent where
  | mkdirEv (uuid : String)
  | touchEv (uuid : String)
  | writeDetailEv (uuid : String)
  | readIndexEv
  | writeIndexEv (entry : Json)

def isIndexWrite : UserEvent → Bool
  | .writeIndexEv _ => true
  | _ => false

/-- The block guarded by `if not user_dir.exists():` for one reference. -/
def ensureUserFkOne (dirExists : String → Bool) (fkData : Json) :
    Except PyErr (List UserEvent) :=
  match fkData with
  | .obj fl =>
    match getField fl "uuid" with
    | some (.str u) =>
      if dirExists u then .ok []
      else
        .ok [.mkdirEv u, .touchEv u, .writeDetailEv u, .readIndexEv,
             .writeIndexEv (.obj
               [("source_record_key", (getField fl "source_record_key").getD .null),
                ("uuid", (getField fl "uuid").getD .null)])]
    | some _ => .error .typeErr
    | none => .error .typeErr
  | _ => .ok []

/-- The loop over the user-valued foreign keys. -/
def ensureUserFksLoop (dirExists : String → Bool) (data : List (String × Json)) :
    List String → Except PyErr (List UserEvent)
  | [] => .ok []
  | fk :: rest =>
    match ensureUserFkOne dirExists ((getField data fk).getD .null) with
    | .error e => .error e
    | .ok evs =>
      match ensureUserFksLoop dirExists data rest with
      | .error e => .error e
      | .ok evs2 => .ok (evs ++ evs2)

/-- `_ensure_user_fks`: nothing happens without declared foreign keys or a
source server; otherwise the loop runs over the keys mapped to `users`. -/
def ensureUserFks (sourcePresent : Bool) (dirExists : String → Bool)
    (fks : List (String × String)) (data : List (String × Json)) :
    Except PyErr (List UserEvent) :=
  if fks.isEmpty || !sourcePresent then .ok []
  else ensureUserFksLoop dirExists data ((fks.filter (fun p => p.2 == "users")).map (fun p => p.1))

/-- C8 (amended): a user discovered transitively through a foreign key has
an entry appended to `<root>/users/index.json` immediately AFTER (not
before) the user's detail file is written: every per-reference block is
either empty or exactly mkdir, touch, detail write, index read, index
write, in that order; and the whole handler is the concatenation of such
blocks. -/
theorem claim_C8 (dirExists : String → Bool) :
    (∀ fkData evs, ensureUserFkOne dirExists fkData = .ok evs →
      evs = [] ∨ ∃ u entry,
        evs = [.mkdirEv u, .touchEv u, .writeDetailEv u, .readIndexEv,
               .writeIndexEv entry]) ∧
    (∀ data fk rest evs1 evs2,
      ensureUserFkOne dirExists ((getField data fk).getD .null) = .ok evs1 →
      ensureUserFksLoop dirExists data rest = .ok evs2 →
      ensureUserFksLoop dirExists data (fk :: rest) = .ok (evs1 ++ evs2)) := by
  constructor
  · intro fkData evs h
    cases fkData with
    | obj fl =>
      simp only [ensureUserFkOne] at h
      split at h
      · rename_i u hu
        split at h
        · cases h
          exact Or.inl rfl
        · cases h
          exact Or.inr ⟨u, _, rfl⟩
      · cases h
      · cases h
    | null => cases h; exact Or.inl rfl
    | bool b => cases h; exact Or.inl rfl
    | num n => cases h; exact Or.inl rfl
    | str s => cases h; exact Or.inl rfl
    | arr l => cases h; exact Or.inl rfl
    | file f => cases h; exact Or.inl rfl
  · intro data fk rest evs1 evs2 h1 h2
    simp [ensureUserFksLoop, h1, h2]

/-- C8 counterexample: for a fresh user reference, the event order is
mkdir, touch, detail write, index read, index write: the detail file is
written at position 2 while no users-index write has yet happened, so the
index entry does not precede the detail write. -/
theorem claim_C8_counterexample :
    ensureUserFkOne (fun _ => false)
      (.obj [("uuid", .str "U7"), ("source_record_key", .str "users:7")]) =
      .ok [.mkdirEv "U7", .touchEv "U7", .writeDetailEv "U7", .readIndexEv,
           .writeIndexEv (.obj [("source_record_key", .str "users:7"),
             ("uuid", .str "U7")])] ∧
    ([UserEvent.mkdirEv "U7", .touchEv "U7", .writeDetailEv "U7"].any isIndexWrite) = false :=
  ⟨rfl, rfl⟩

/-- C8 witness: the amended per-block shape and the loop concatenation on a
concrete record. -/
theorem claim_C8_witness :
    ([] = ([] : List UserEvent) ∨ ∃ u entry,
      ([] : List UserEvent) = [.mkdirEv u, .touchEv u, .writeDetailEv u, .readIndexEv,
        .writeIndexEv entry]) ∧
    ensureUserFksLoop (fun _ => false)
      [("creator", .obj [("uuid", .str "U7"), ("source_record_key", .str "users:7")])]
      ["creator"] =
      .ok ([.mkdirEv "U7", .touchEv "U7", .writeDetailEv "U7", .readIndexEv,
            .writeIndexEv (.obj [("source_record_key", .str "users:7"),
              ("uuid", .str "U7")])] ++ []) := by
  constructor
  · exact (claim_C8 (fun _ => true)).1 (.obj [("uuid", .str "U7")]) [] rfl
  · exact (claim_C8 (fun _ => false)).2
      [("creator", .obj [("uuid", .str "U7"), ("source_record_key", .str "users:7")])]
      "creator" [] _ [] rfl rfl

end JournalTransporter
